import Mathlib

/-!
# Quickstep query execution core: work-order generation and completion predicates

A shallow embedding of

* `QueryManagerSingleNode::checkNormalExecutionOver`, `checkRebuildOver`
  (`query_execution/QueryManagerSingleNode.hpp`),
* `FinalizeAggregationOperator::getAllWorkOrders`, `getAllWorkOrderProtos`
  (`relational_operators/FinalizeAggregationOperator.cpp`),
* `InitializeAggregationOperator::getAllWorkOrders`
  (`relational_operators/InitializeAggregationOperator.cpp`),
* the optimizer's `ScalarLiteral::copyWithNewChildren`
  (`query_optimizer/expressions/ScalarLiteral.cpp`).

Conventions: `dag_node_index`, `partition_id` and `std::size_t` are natural
numbers (no arithmetic here can wrap: every counter is compared against a
bound of its own type before it is incremented). A member function that
mutates its object returns the new object next to its result. A failed
`DCHECK`, an out-of-range vector index or a dereferenced null pointer is
`none`.
-/

namespace Quickstep

/-! ## Collaborators declared outside the translated sources -/

/-- Modelled from the spec: `AggregationOperationState`
(`storage/AggregationOperationState.hpp` is not among the sources). The
operators read only its two partition counts, `getNumInitializationPartitions()`
and `getNumFinalizationPartitions()` (the spec's
`agg_state.num_finalization_partitions`); `state_id` tells two states apart. -/
structure AggregationOperationState where
  state_id : Nat
  num_initialization_partitions : Nat
  num_finalization_partitions : Nat
deriving DecidableEq, Repr

/-- The accessor `AggregationOperationState::getNumInitializationPartitions()`. -/
def AggregationOperationState.getNumInitializationPartitions
    (s : AggregationOperationState) : Nat :=
  s.num_initialization_partitions

/-- The accessor `AggregationOperationState::getNumFinalizationPartitions()`. -/
def AggregationOperationState.getNumFinalizationPartitions
    (s : AggregationOperationState) : Nat :=
  s.num_finalization_partitions

/-- Modelled from the spec: `QueryContext` (`query_execution/QueryContext.hpp`
is not among the sources), "a registry of shared per-query objects, each
addressable by a stable small integer index": `AggregationState[index][partition]`
and `InsertDestination[index]`. A missing aggregation state is the null
pointer, `none`; an insert destination is named by a handle. -/
structure QueryContext where
  aggregation_states : Nat → Nat → Option AggregationOperationState
  insert_destinations : Nat → Nat

/-- The lookup `QueryContext::getAggregationState(index, part_id)`. -/
def QueryContext.getAggregationState (qc : QueryContext) (index part_id : Nat) :
    Option AggregationOperationState :=
  qc.aggregation_states index part_id

/-- The lookup `QueryContext::getInsertDestination(index)`. -/
def QueryContext.getInsertDestination (qc : QueryContext) (index : Nat) : Nat :=
  qc.insert_destinations index

/-- The two work-order classes built by the translated operators, with the
constructor arguments in the order of the source. -/
inductive WorkOrder where
  | FinalizeAggregationWorkOrder (query_id partition_id state_partition_id : Nat)
      (state : AggregationOperationState) (output_destination : Nat)
  | InitializeAggregationWorkOrder (query_id partition_id : Nat)
      (state : AggregationOperationState)
deriving DecidableEq, Repr

/-- A work order waiting in a container, with the operator and partition whose
queue it was added to. -/
structure QueuedWorkOrder (W : Type) where
  op_index : Nat
  part_id : Nat
  workorder : W
deriving DecidableEq, Repr

/-- Modelled from the spec: `WorkOrdersContainer`
(`query_execution/WorkOrdersContainer.hpp` is not among the sources):
"maintains, per operator, two queues per partition (normal, rebuild)", each
FIFO. Both classes are kept as the sequence of additions, oldest first; the
queue of `(op, part)` is the subsequence carrying that pair. -/
structure WorkOrdersContainer (W : Type) where
  normal_workorders : List (QueuedWorkOrder W)
  rebuild_workorders : List (QueuedWorkOrder W)
deriving DecidableEq, Repr

namespace WorkOrdersContainer

variable {W : Type}

/-- The spec's `add_normal(op, part, wo)`: enqueue at the back. -/
def addNormalWorkOrder (c : WorkOrdersContainer W) (workorder : W)
    (operator_index part_id : Nat) : WorkOrdersContainer W :=
  { c with normal_workorders :=
      c.normal_workorders ++ [⟨operator_index, part_id, workorder⟩] }

/-- The spec's `add_rebuild(op, part, wo)`: enqueue at the back. -/
def addRebuildWorkOrder (c : WorkOrdersContainer W) (workorder : W)
    (operator_index part_id : Nat) : WorkOrdersContainer W :=
  { c with rebuild_workorders :=
      c.rebuild_workorders ++ [⟨operator_index, part_id, workorder⟩] }

/-- The normal queue of `(operator_index, part_id)`, oldest first. -/
def normalQueue (c : WorkOrdersContainer W) (operator_index part_id : Nat) : List W :=
  (c.normal_workorders.filter
    (fun e => decide (e.op_index = operator_index ∧ e.part_id = part_id))).map
    (fun e => e.workorder)

/-- The rebuild queue of `(operator_index, part_id)`, oldest first. -/
def rebuildQueue (c : WorkOrdersContainer W) (operator_index part_id : Nat) : List W :=
  (c.rebuild_workorders.filter
    (fun e => decide (e.op_index = operator_index ∧ e.part_id = part_id))).map
    (fun e => e.workorder)

/-- The spec's `has_normal(op, part)`. -/
def hasNormalWorkOrder (c : WorkOrdersContainer W) (operator_index part_id : Nat) : Bool :=
  c.normal_workorders.any
    (fun e => decide (e.op_index = operator_index ∧ e.part_id = part_id))

/-- The spec's `has_rebuild(op, part)`. -/
def hasRebuildWorkOrder (c : WorkOrdersContainer W) (operator_index part_id : Nat) : Bool :=
  c.rebuild_workorders.any
    (fun e => decide (e.op_index = operator_index ∧ e.part_id = part_id))

end WorkOrdersContainer

/-- One row of the spec's `QueryExecutionState` table, the ledger kept for a
pair `(op_index, partition_id)`. -/
structure PartitionExecutionState where
  blocking_deps_met : Bool
  num_queued_normal : Nat
  generation_done_normal : Bool
  rebuild_initiated : Bool
  num_queued_rebuild : Nat
  done : Bool
deriving DecidableEq, Repr

/-- Modelled from the spec: `QueryExecutionState`
(`query_execution/QueryExecutionState.hpp` is not among the sources), which
"maintains, for every `(op_index, partition_id)`" the row above, and the
per-operator declaration "whether it requires a rebuild phase". -/
structure QueryExecutionState where
  rows : Nat → Nat → PartitionExecutionState
  rebuild_required : Nat → Bool

namespace QueryExecutionState

/-- The accessor `getNumQueuedWorkOrders(index, part_id)`: the spec's
`num_queued_normal`. -/
def getNumQueuedWorkOrders (s : QueryExecutionState) (index part_id : Nat) : Nat :=
  (s.rows index part_id).num_queued_normal

/-- The accessor `hasDoneGenerationWorkOrders(index, part_id)`: the spec's
`generation_done_normal`. -/
def hasDoneGenerationWorkOrders (s : QueryExecutionState) (index part_id : Nat) : Bool :=
  (s.rows index part_id).generation_done_normal

/-- The accessor `hasRebuildInitiated(index, part_id)`: the spec's
`rebuild_initiated`. -/
def hasRebuildInitiated (s : QueryExecutionState) (index part_id : Nat) : Bool :=
  (s.rows index part_id).rebuild_initiated

/-- The accessor `getNumRebuildWorkOrders(index, part_id)`: the spec's
`num_queued_rebuild`. -/
def getNumRebuildWorkOrders (s : QueryExecutionState) (index part_id : Nat) : Nat :=
  (s.rows index part_id).num_queued_rebuild

/-- The accessor `isRebuildRequired(index)`: the spec's `needs_rebuild`. -/
def isRebuildRequired (s : QueryExecutionState) (index : Nat) : Bool :=
  s.rebuild_required index

end QueryExecutionState

/-! ## `QueryManagerSingleNode` -/

/-- The members of `QueryManagerSingleNode` (and of its base class) that the
completion predicates read. `output_num_partitions_` is the base class's map
from operator index to its number of output partitions, kept as a list of
`(key, value)` pairs. -/
structure QueryManagerSingleNode (W : Type) where
  query_exec_state_ : QueryExecutionState
  workorders_container_ : WorkOrdersContainer W
  output_num_partitions_ : List (Nat × Nat)

namespace QueryManagerSingleNode

variable {W : Type}

/-- Modelled from the spec: `QueryManagerBase::checkAllDependenciesMet(index,
part_id)` is declared outside the sources; the spec's normal-phase completion
predicate reads `blocking_deps_met` of the pair in its place. -/
def checkAllDependenciesMet (qm : QueryManagerSingleNode W) (index part_id : Nat) : Bool :=
  (qm.query_exec_state_.rows index part_id).blocking_deps_met

/-- `QueryManagerSingleNode::checkNormalExecutionOver(index, part_id)`
(QueryManagerSingleNode.hpp, lines 102-107). -/
def checkNormalExecutionOver (qm : QueryManagerSingleNode W) (index part_id : Nat) : Bool :=
  qm.checkAllDependenciesMet index part_id &&
    !qm.workorders_container_.hasNormalWorkOrder index part_id &&
    qm.query_exec_state_.getNumQueuedWorkOrders index part_id == 0 &&
    qm.query_exec_state_.hasDoneGenerationWorkOrders index part_id

/-- `QueryManagerSingleNode::checkRebuildOver(index, part_id)`
(QueryManagerSingleNode.hpp, lines 114-119). -/
def checkRebuildOver (qm : QueryManagerSingleNode W) (index part_id : Nat) : Bool :=
  qm.query_exec_state_.hasRebuildInitiated index part_id &&
    !qm.workorders_container_.hasRebuildWorkOrder index part_id &&
    (qm.query_exec_state_.getNumRebuildWorkOrders index part_id == 0)

/-- The `for` loop of `checkRebuildOver(index)` (lines 124-128), entered with
the counter at `output_part_id` and the bound `num_output_partitions`
(`cit->second`): `false` at the first partition whose rebuild is not over,
`true` when the counter reaches the bound. -/
def checkRebuildOverLoop (qm : QueryManagerSingleNode W) (index num_output_partitions : Nat)
    (output_part_id : Nat) : Bool :=
  if output_part_id < num_output_partitions then
    if !qm.checkRebuildOver index output_part_id then
      false
    else
      checkRebuildOverLoop qm index num_output_partitions (output_part_id + 1)
  else
    true
termination_by num_output_partitions - output_part_id

/-- The operator-level `QueryManagerSingleNode::checkRebuildOver(index)`
(QueryManagerSingleNode.hpp, lines 121-131). `none` is the failed
`DCHECK(cit != output_num_partitions_.end())`. -/
def checkRebuildOverIndex (qm : QueryManagerSingleNode W) (index : Nat) : Option Bool :=
  match qm.output_num_partitions_.lookup index with
  | none => none
  | some num_output_partitions =>
      some (qm.checkRebuildOverLoop index num_output_partitions 0)

/-- The completion condition of a partition as the query manager evaluates
it: the normal phase is over and, when the operator requires a rebuild, the
rebuild phase is over. -/
def checkPartitionExecutionOver (qm : QueryManagerSingleNode W) (index part_id : Nat) : Bool :=
  qm.checkNormalExecutionOver index part_id &&
    (!qm.query_exec_state_.isRebuildRequired index || qm.checkRebuildOver index part_id)

/-- The spec's done formula (data model, invariant 3), word for word:
`generation_done_normal ∧ num_queued_normal == 0 ∧
(¬needs_rebuild ∨ (rebuild_initiated ∧ num_queued_rebuild == 0))`. -/
def specPartitionDone (qm : QueryManagerSingleNode W) (index part_id : Nat) : Bool :=
  (qm.query_exec_state_.rows index part_id).generation_done_normal &&
    ((qm.query_exec_state_.rows index part_id).num_queued_normal == 0) &&
    (!qm.query_exec_state_.rebuild_required index ||
      ((qm.query_exec_state_.rows index part_id).rebuild_initiated &&
        ((qm.query_exec_state_.rows index part_id).num_queued_rebuild == 0)))

end QueryManagerSingleNode

/-! ## `FinalizeAggregationOperator` -/

/-- The value `serialization::WorkOrderType` of a work-order proto; only
`FINALIZE_AGGREGATION` is written by the translated code. -/
inductive WorkOrderType where
  | FINALIZE_AGGREGATION
  | INITIALIZE_AGGREGATION
deriving DecidableEq, Repr

/-- The `serialization::WorkOrder` proto with the fields and extensions that
`getAllWorkOrderProtos` sets. -/
structure WorkOrderProto where
  work_order_type : WorkOrderType
  query_id : Nat
  aggr_state_index : Nat
  partition_id : Nat
  state_partition_id : Nat
  insert_destination_index : Nat
deriving DecidableEq, Repr

/-- Modelled from the spec: `WorkOrderProtosContainer`
(`query_execution/WorkOrderProtosContainer.hpp` is not among the sources), the
proto counterpart of the work-order container: the protos added so far, oldest
first, each with the operator index it was added under. -/
structure WorkOrderProtosContainer where
  protos : List (Nat × WorkOrderProto)
deriving DecidableEq, Repr

/-- The call `WorkOrderProtosContainer::addWorkOrderProto(proto, operator_index)`. -/
def WorkOrderProtosContainer.addWorkOrderProto (c : WorkOrderProtosContainer)
    (proto : WorkOrderProto) (operator_index : Nat) : WorkOrderProtosContainer :=
  { protos := c.protos ++ [(operator_index, proto)] }

/-- The data members of `FinalizeAggregationOperator` read or written by the
translated member functions. `blocking_dependencies_met_` and `started_` are
the per-partition `bool` vectors. -/
structure FinalizeAggregationOperator where
  query_id_ : Nat
  op_index_ : Nat
  num_partitions_ : Nat
  aggr_state_index_ : Nat
  output_destination_index_ : Nat
  blocking_dependencies_met_ : List Bool
  started_ : List Bool
deriving DecidableEq, Repr

namespace FinalizeAggregationOperator

/-- The `for` loop of `getAllWorkOrders` (FinalizeAggregationOperator.cpp,
lines 52-63), entered with the counter at `state_part_id`: one
`addNormalWorkOrder` per iteration, on the queue of `(op_index_, part_id)`. -/
def getAllWorkOrdersLoop (op : FinalizeAggregationOperator) (part_id : Nat)
    (agg_state : AggregationOperationState) (query_context : QueryContext)
    (state_part_id : Nat) (container : WorkOrdersContainer WorkOrder) :
    WorkOrdersContainer WorkOrder :=
  if state_part_id < agg_state.getNumFinalizationPartitions then
    getAllWorkOrdersLoop op part_id agg_state query_context (state_part_id + 1)
      (container.addNormalWorkOrder
        (WorkOrder.FinalizeAggregationWorkOrder
          op.query_id_
          part_id
          state_part_id
          agg_state
          (query_context.getInsertDestination op.output_destination_index_))
        op.op_index_ part_id)
  else
    container
termination_by agg_state.getNumFinalizationPartitions - state_part_id

/-- `FinalizeAggregationOperator::getAllWorkOrders(part_id, container,
query_context, ...)` (FinalizeAggregationOperator.cpp, lines 37-66): the
returned value, the operator after the call and the container after the call.
`none` when `part_id` lies outside `blocking_dependencies_met_` or `started_`,
and when `DCHECK(agg_state != nullptr)` fails; `query_context` is a value, so
`DCHECK(query_context != nullptr)` holds. -/
def getAllWorkOrders (op : FinalizeAggregationOperator) (part_id : Nat)
    (container : WorkOrdersContainer WorkOrder) (query_context : QueryContext) :
    Option (Bool × FinalizeAggregationOperator × WorkOrdersContainer WorkOrder) :=
  match op.blocking_dependencies_met_[part_id]?, op.started_[part_id]? with
  | some met, some started =>
      if met && !started then
        let op1 := { op with started_ := op.started_.set part_id true }
        match query_context.getAggregationState op.aggr_state_index_ part_id with
        | none => none
        | some agg_state =>
            let container1 :=
              op1.getAllWorkOrdersLoop part_id agg_state query_context 0 container
            match op1.started_[part_id]? with
            | some result => some (result, op1, container1)
            | none => none
      else
        some (started, op, container)
  | _, _ => none

/-- The `for` loop of `getAllWorkOrderProtos` (FinalizeAggregationOperator.cpp,
lines 75-89), entered with the counter at `part_id`: one proto per partition,
added under `op_index_`. -/
def getAllWorkOrderProtosLoop (op : FinalizeAggregationOperator) (part_id : Nat)
    (container : WorkOrderProtosContainer) : WorkOrderProtosContainer :=
  if part_id < op.num_partitions_ then
    getAllWorkOrderProtosLoop op (part_id + 1)
      (container.addWorkOrderProto
        { work_order_type := WorkOrderType.FINALIZE_AGGREGATION
          query_id := op.query_id_
          aggr_state_index := op.aggr_state_index_
          partition_id := part_id
          state_partition_id := 0
          insert_destination_index := op.output_destination_index_ }
        op.op_index_)
  else
    container
termination_by op.num_partitions_ - part_id

/-- `FinalizeAggregationOperator::getAllWorkOrderProtos(container)`
(FinalizeAggregationOperator.cpp, lines 71-92): the returned value, the
operator after the call and the proto container after the call. `none` when
partition 0 lies outside `blocking_dependencies_met_` or `started_`. -/
def getAllWorkOrderProtos (op : FinalizeAggregationOperator)
    (container : WorkOrderProtosContainer) :
    Option (Bool × FinalizeAggregationOperator × WorkOrderProtosContainer) :=
  match op.blocking_dependencies_met_[0]?, op.started_[0]? with
  | some met, some started =>
      if met && !started then
        let op1 := { op with started_ := op.started_.set 0 true }
        let container1 := op1.getAllWorkOrderProtosLoop 0 container
        match op1.started_[0]? with
        | some result => some (result, op1, container1)
        | none => none
      else
        some (started, op, container)
  | _, _ => none

/-- An event in the life of the operator between two calls of
`getAllWorkOrders`: a call of one of its two generating member functions, with
the container handed to it (the scheduler may have dequeued work orders in
between, so each call brings its own container), or a write to
`blocking_dependencies_met_`. -/
inductive Event where
  | getAllWorkOrders (part_id : Nat) (container : WorkOrdersContainer WorkOrder)
      (query_context : QueryContext)
  | getAllWorkOrderProtos (container : WorkOrderProtosContainer)
  | setBlockingDependenciesMet (part_id : Nat) (value : Bool)

/-- Modelled from the spec: the write to `blocking_dependencies_met_` lives in
the base class `RelationalOperator`, declared outside the sources (the spec's
"mark `blocking_deps_met[op, *] = true`"). Any value may be written at an
existing partition; a partition outside the vector is `none`. -/
def setBlockingDependenciesMet (op : FinalizeAggregationOperator) (part_id : Nat)
    (value : Bool) : Option FinalizeAggregationOperator :=
  if part_id < op.blocking_dependencies_met_.length then
    some { op with
      blocking_dependencies_met_ := op.blocking_dependencies_met_.set part_id value }
  else
    none

/-- The operator after one event; `none` when the event fails. -/
def applyEvent (op : FinalizeAggregationOperator) : Event → Option FinalizeAggregationOperator
  | Event.getAllWorkOrders part_id container query_context =>
      (op.getAllWorkOrders part_id container query_context).map (fun r => r.2.1)
  | Event.getAllWorkOrderProtos container =>
      (op.getAllWorkOrderProtos container).map (fun r => r.2.1)
  | Event.setBlockingDependenciesMet part_id value =>
      op.setBlockingDependenciesMet part_id value

/-- The operator after a sequence of events, oldest first. -/
def applyEvents (op : FinalizeAggregationOperator) : List Event → Option FinalizeAggregationOperator
  | [] => some op
  | e :: es =>
      match op.applyEvent e with
      | none => none
      | some op1 => applyEvents op1 es

end FinalizeAggregationOperator

/-! ## `InitializeAggregationOperator` -/

/-- The data members of `InitializeAggregationOperator` read or written by
`getAllWorkOrders`. -/
structure InitializeAggregationOperator where
  query_id_ : Nat
  op_index_ : Nat
  aggr_state_index_ : Nat
  started_ : Bool
deriving DecidableEq, Repr

namespace InitializeAggregationOperator

/-- The `for` loop of `getAllWorkOrders` (InitializeAggregationOperator.cpp,
lines 47-55), entered with the counter at `part_id`. The source calls
`addNormalWorkOrder(workorder, op_index_)` without a partition: the work
orders go to the queue of partition 0 of the operator. -/
def getAllWorkOrdersLoop (op : InitializeAggregationOperator)
    (agg_state : AggregationOperationState) (part_id : Nat)
    (container : WorkOrdersContainer WorkOrder) : WorkOrdersContainer WorkOrder :=
  if part_id < agg_state.getNumInitializationPartitions then
    getAllWorkOrdersLoop op agg_state (part_id + 1)
      (container.addNormalWorkOrder
        (WorkOrder.InitializeAggregationWorkOrder op.query_id_ part_id agg_state)
        op.op_index_ 0)
  else
    container
termination_by agg_state.getNumInitializationPartitions - part_id

/-- `InitializeAggregationOperator::getAllWorkOrders(container, query_context,
...)` (InitializeAggregationOperator.cpp, lines 36-59): the returned value,
the operator after the call and the container after the call. `none` when
`DCHECK(agg_state != nullptr)` fails. -/
def getAllWorkOrders (op : InitializeAggregationOperator)
    (container : WorkOrdersContainer WorkOrder) (query_context : QueryContext) :
    Option (Bool × InitializeAggregationOperator × WorkOrdersContainer WorkOrder) :=
  if !op.started_ then
    match query_context.getAggregationState op.aggr_state_index_ 0 with
    | none => none
    | some agg_state =>
        let container1 := op.getAllWorkOrdersLoop agg_state 0 container
        some (true, { op with started_ := true }, container1)
  else
    some (true, op, container)

end InitializeAggregationOperator

/-! ## The optimizer expression `ScalarLiteral` -/

namespace optimizer
namespace expressions

/-- The shared handle `ExpressionPtr` (`std::shared_ptr<const Expression>`): the
address of a node in the node store. -/
abbrev ExpressionPtr := Nat

/-- The data members of the optimizer's `ScalarLiteral`: the child list kept by
its tree base class, `value_` and `value_type_`. `Value` stands for
`TypedValue` and `ValueType` for `Type`, both declared outside the sources. -/
structure ScalarLiteral (Value ValueType : Type) where
  children_ : List ExpressionPtr
  value_ : Value
  value_type_ : ValueType
deriving DecidableEq, Repr

/-- Modelled from the spec: plan nodes are "immutable nodes with shared
ownership (ref-counted handles)". The store holds every node allocated so
far, a handle is the position of its node, and a node once allocated is never
overwritten. -/
structure NodeStore (Value ValueType : Type) where
  nodes : List (ScalarLiteral Value ValueType)
deriving DecidableEq, Repr

namespace ScalarLiteral

variable {Value ValueType : Type}

/-- The accessor `children()` of the tree base class. -/
def children (s : ScalarLiteral Value ValueType) : List ExpressionPtr :=
  s.children_

/-- The accessor `value()`. -/
def value (s : ScalarLiteral Value ValueType) : Value :=
  s.value_

/-- `ScalarLiteral::getValueType()` (ScalarLiteral.cpp, lines 27-29). -/
def getValueType (s : ScalarLiteral Value ValueType) : ValueType :=
  s.value_type_

/-- Modelled from the spec: `ScalarLiteral::Create(value, value_type)` is
declared in `ScalarLiteral.hpp`, not among the sources. As `Project::Create`
in `Project.hpp` does for its class, it allocates a node from the constructor
arguments and returns the handle of that node; a literal is a leaf, so the node
has no children. -/
def Create (store : NodeStore Value ValueType) (literal_value : Value)
    (literal_value_type : ValueType) : ExpressionPtr × NodeStore Value ValueType :=
  (store.nodes.length,
    { nodes := store.nodes ++
        [{ children_ := [], value_ := literal_value, value_type_ := literal_value_type }] })

/-- `ScalarLiteral::copyWithNewChildren(new_children)` (ScalarLiteral.cpp, lines
31-35), called on the node at the handle `self`: the handle returned and the
store after the call. `none` when `self` names no node and when
`DCHECK_EQ(new_children.size(), children().size())` fails. -/
def copyWithNewChildren (store : NodeStore Value ValueType) (self : ExpressionPtr)
    (new_children : List ExpressionPtr) :
    Option (ExpressionPtr × NodeStore Value ValueType) :=
  match store.nodes[self]? with
  | none => none
  | some s =>
      if new_children.length = s.children.length then
        some (Create store s.value_ s.value_type_)
      else
        none

end ScalarLiteral

end expressions
end optimizer

/-! ## Concrete states used to evaluate the definitions -/

/-- An aggregation state with two initialization and three finalization
partitions. -/
def sampleAggregationState : AggregationOperationState :=
  { state_id := 7, num_initialization_partitions := 2, num_finalization_partitions := 3 }

/-- A query manager state for operator 0, partition 0: the operator needs no
rebuild, its dependencies are met, it has reported generation done and no
work order is in flight, but one generated work order still waits in the
container for dispatch. -/
def sampleUndispatchedManager : QueryManagerSingleNode WorkOrder :=
  { query_exec_state_ :=
      { rows := fun _ _ =>
          { blocking_deps_met := true, num_queued_normal := 0,
            generation_done_normal := true, rebuild_initiated := false,
            num_queued_rebuild := 0, done := false }
        rebuild_required := fun _ => false }
    workorders_container_ :=
      { normal_workorders :=
          [⟨0, 0, WorkOrder.InitializeAggregationWorkOrder 1 0 sampleAggregationState⟩]
        rebuild_workorders := [] }
    output_num_partitions_ := [(0, 1)] }

/-- A query manager state in which operator 4 has two output partitions, both
with the rebuild initiated and drained. -/
def sampleRebuiltManager : QueryManagerSingleNode WorkOrder :=
  { query_exec_state_ :=
      { rows := fun _ _ =>
          { blocking_deps_met := true, num_queued_normal := 0,
            generation_done_normal := true, rebuild_initiated := true,
            num_queued_rebuild := 0, done := false }
        rebuild_required := fun _ => true }
    workorders_container_ := { normal_workorders := [], rebuild_workorders := [] }
    output_num_partitions_ := [(4, 2)] }

/-- A query context whose aggregation states live at index 5, every partition
sharing `sampleAggregationState`. -/
def sampleQueryContext : QueryContext :=
  { aggregation_states := fun index _ => if index = 5 then some sampleAggregationState else none
    insert_destinations := fun index => index + 100 }

/-- A container with nothing queued. -/
def emptyContainer : WorkOrdersContainer WorkOrder :=
  { normal_workorders := [], rebuild_workorders := [] }

/-- A finalize operator over two partitions: partition 0 still waits for its
blocking dependencies, partition 1 is ready; neither has been started. -/
def sampleFinalizeOperator : FinalizeAggregationOperator :=
  { query_id_ := 1, op_index_ := 3, num_partitions_ := 2, aggr_state_index_ := 5,
    output_destination_index_ := 9,
    blocking_dependencies_met_ := [false, true], started_ := [false, false] }

/-- The operator `sampleFinalizeOperator` once partition 1 has been started. -/
def sampleStartedFinalizeOperator : FinalizeAggregationOperator :=
  { query_id_ := 1, op_index_ := 3, num_partitions_ := 2, aggr_state_index_ := 5,
    output_destination_index_ := 9,
    blocking_dependencies_met_ := [false, true], started_ := [false, true] }

/-- The three finalization work orders of partition 1 of operator 3, in the
queue order. -/
def sampleFinalizeContainer : WorkOrdersContainer WorkOrder :=
  { normal_workorders :=
      [⟨3, 1, WorkOrder.FinalizeAggregationWorkOrder 1 1 0 sampleAggregationState 109⟩,
       ⟨3, 1, WorkOrder.FinalizeAggregationWorkOrder 1 1 1 sampleAggregationState 109⟩,
       ⟨3, 1, WorkOrder.FinalizeAggregationWorkOrder 1 1 2 sampleAggregationState 109⟩]
    rebuild_workorders := [] }

/-- A query context for a single-partition plan: one aggregation state, at
index 5 and partition 0. -/
def singlePartitionQueryContext : QueryContext :=
  { aggregation_states := fun index part_id =>
      if index = 5 ∧ part_id = 0 then some sampleAggregationState else none
    insert_destinations := fun index => index + 100 }

/-- An initialize operator that has not been asked for work orders yet. -/
def sampleInitializeOperator : InitializeAggregationOperator :=
  { query_id_ := 1, op_index_ := 2, aggr_state_index_ := 5, started_ := false }

/-- The operator `sampleInitializeOperator` after its first call. -/
def sampleStartedInitializeOperator : InitializeAggregationOperator :=
  { query_id_ := 1, op_index_ := 2, aggr_state_index_ := 5, started_ := true }

/-- The two initialization work orders of operator 2, in the queue order. -/
def sampleInitializeContainer : WorkOrdersContainer WorkOrder :=
  { normal_workorders :=
      [⟨2, 0, WorkOrder.InitializeAggregationWorkOrder 1 0 sampleAggregationState⟩,
       ⟨2, 0, WorkOrder.InitializeAggregationWorkOrder 1 1 sampleAggregationState⟩]
    rebuild_workorders := [] }

/-- A proto container with nothing in it. -/
def emptyProtosContainer : WorkOrderProtosContainer :=
  { protos := [] }

/-- A finalize operator over two partitions of which only partition 0 has its
blocking dependencies met; neither partition has been started. -/
def sampleHalfReadyFinalizeOperator : FinalizeAggregationOperator :=
  { query_id_ := 1, op_index_ := 3, num_partitions_ := 2, aggr_state_index_ := 5,
    output_destination_index_ := 9,
    blocking_dependencies_met_ := [true, false], started_ := [false, false] }

/-- The operator `sampleHalfReadyFinalizeOperator` once `started_[0]` is set. -/
def sampleHalfReadyStartedFinalizeOperator : FinalizeAggregationOperator :=
  { query_id_ := 1, op_index_ := 3, num_partitions_ := 2, aggr_state_index_ := 5,
    output_destination_index_ := 9,
    blocking_dependencies_met_ := [true, false], started_ := [true, false] }

/-- The protos of partitions 0 and 1 of operator 3, in the order of addition. -/
def sampleFinalizeProtosContainer : WorkOrderProtosContainer :=
  { protos :=
      [(3, { work_order_type := WorkOrderType.FINALIZE_AGGREGATION, query_id := 1,
             aggr_state_index := 5, partition_id := 0, state_partition_id := 0,
             insert_destination_index := 9 }),
       (3, { work_order_type := WorkOrderType.FINALIZE_AGGREGATION, query_id := 1,
             aggr_state_index := 5, partition_id := 1, state_partition_id := 0,
             insert_destination_index := 9 })] }

/-- A node store with two literals: value 42 of type 1 at handle 0, value 7 of
type 2 at handle 1. -/
def sampleNodeStore : optimizer.expressions.NodeStore Nat Nat :=
  { nodes := [{ children_ := [], value_ := 42, value_type_ := 1 },
              { children_ := [], value_ := 7, value_type_ := 2 }] }

/-! ## Lemmas on the container and on the loops -/

namespace WorkOrdersContainer

variable {W : Type}

/-- The test `has_normal(op, part)` fails exactly when the normal queue of
`(op, part)` is empty. -/
theorem hasNormalWorkOrder_eq_false_iff (c : WorkOrdersContainer W) (op part : Nat) :
    c.hasNormalWorkOrder op part = false ↔ c.normalQueue op part = [] := by
  simp [hasNormalWorkOrder, normalQueue, List.filter_eq_nil_iff]

/-- The test `has_rebuild(op, part)` fails exactly when the rebuild queue of
`(op, part)` is empty. -/
theorem hasRebuildWorkOrder_eq_false_iff (c : WorkOrdersContainer W) (op part : Nat) :
    c.hasRebuildWorkOrder op part = false ↔ c.rebuildQueue op part = [] := by
  simp [hasRebuildWorkOrder, rebuildQueue, List.filter_eq_nil_iff]

/-- Work orders appended to the queue of `(op, part)` arrive at its back, in
order. -/
theorem normalQueue_append_same (c : WorkOrdersContainer W) (op part : Nat) (ws : List W) :
    normalQueue
        { normal_workorders := c.normal_workorders ++
            ws.map (fun w => (⟨op, part, w⟩ : QueuedWorkOrder W))
          rebuild_workorders := c.rebuild_workorders } op part =
      c.normalQueue op part ++ ws := by
  have hall : (ws.map (fun w => (⟨op, part, w⟩ : QueuedWorkOrder W))).filter
      (fun e => decide (e.op_index = op ∧ e.part_id = part)) =
      ws.map (fun w => (⟨op, part, w⟩ : QueuedWorkOrder W)) := by
    rw [List.filter_eq_self]
    intro a ha
    rcases List.mem_map.mp ha with ⟨w, _, rfl⟩
    simp
  have hid : (ws.map (fun w => (⟨op, part, w⟩ : QueuedWorkOrder W))).map
      (fun e => e.workorder) = ws := by
    simp [List.map_map, Function.comp_def]
  simp only [normalQueue, List.filter_append, hall, List.map_append, hid]

/-- Work orders appended to the queue of `(op, part)` leave every other queue
as it was. -/
theorem normalQueue_append_other (c : WorkOrdersContainer W) (op part : Nat) (ws : List W)
    (op2 part2 : Nat) (hne : ¬ (op2 = op ∧ part2 = part)) :
    normalQueue
        { normal_workorders := c.normal_workorders ++
            ws.map (fun w => (⟨op, part, w⟩ : QueuedWorkOrder W))
          rebuild_workorders := c.rebuild_workorders } op2 part2 =
      c.normalQueue op2 part2 := by
  have hnil : (ws.map (fun w => (⟨op, part, w⟩ : QueuedWorkOrder W))).filter
      (fun e => decide (e.op_index = op2 ∧ e.part_id = part2)) = [] := by
    rw [List.filter_eq_nil_iff]
    intro a ha
    rcases List.mem_map.mp ha with ⟨w, _, rfl⟩
    simp only [decide_eq_true_eq]
    intro h
    exact hne ⟨h.1.symm, h.2.symm⟩
  simp only [normalQueue, List.filter_append, hnil, List.append_nil]

end WorkOrdersContainer

namespace QueryManagerSingleNode

variable {W : Type}

/-- The loop of `checkRebuildOver(index)` entered at `k` returns true exactly
when the rebuild of every partition from `k` up to the bound is over. -/
theorem checkRebuildOverLoop_eq_true_iff (qm : QueryManagerSingleNode W) (index n : Nat) :
    ∀ (d k : Nat), n - k = d →
      (qm.checkRebuildOverLoop index n k = true ↔
        ∀ p, k ≤ p → p < n → qm.checkRebuildOver index p = true) := by
  intro d
  induction d with
  | zero =>
      intro k hk
      rw [checkRebuildOverLoop]
      have hnk : ¬ k < n := by omega
      simp only [hnk, if_false, true_iff]
      intro p hp hpn
      omega
  | succ d ih =>
      intro k hk
      rw [checkRebuildOverLoop]
      have hkn : k < n := by omega
      simp only [hkn, if_true]
      cases hc : qm.checkRebuildOver index k with
      | false =>
          simp only [Bool.not_false, if_true]
          constructor
          · intro h; cases h
          · intro h
            have := h k (Nat.le_refl k) hkn
            rw [hc] at this
            cases this
      | true =>
          simp only [Bool.not_true, Bool.false_eq_true, if_false]
          rw [ih (k + 1) (by omega)]
          constructor
          · intro h p hp hpn
            rcases Nat.eq_or_lt_of_le hp with heq | hlt
            · rw [← heq]; exact hc
            · exact h p hlt hpn
          · intro h p hp hpn
            exact h p (by omega) hpn

end QueryManagerSingleNode

namespace FinalizeAggregationOperator

/-- The loop of `getAllWorkOrders` entered at `k` appends one work order for
each state partition id from `k` up to the bound, in ascending order. -/
theorem getAllWorkOrdersLoop_eq (op : FinalizeAggregationOperator) (part_id : Nat)
    (agg_state : AggregationOperationState) (query_context : QueryContext) :
    ∀ (d k : Nat) (c : WorkOrdersContainer WorkOrder),
      agg_state.getNumFinalizationPartitions - k = d →
      op.getAllWorkOrdersLoop part_id agg_state query_context k c =
        { normal_workorders := c.normal_workorders ++
            (List.range' k d).map (fun state_part_id =>
              (⟨op.op_index_, part_id,
                WorkOrder.FinalizeAggregationWorkOrder op.query_id_ part_id state_part_id
                  agg_state (query_context.getInsertDestination op.output_destination_index_)⟩ :
                QueuedWorkOrder WorkOrder))
          rebuild_workorders := c.rebuild_workorders } := by
  intro d
  induction d with
  | zero =>
      intro k c hk
      rw [getAllWorkOrdersLoop]
      have hnk : ¬ k < agg_state.getNumFinalizationPartitions := by omega
      simp [hnk]
  | succ d ih =>
      intro k c hk
      rw [getAllWorkOrdersLoop]
      have hkn : k < agg_state.getNumFinalizationPartitions := by omega
      simp only [hkn, if_true]
      rw [ih (k + 1) _ (by omega)]
      simp [WorkOrdersContainer.addNormalWorkOrder, List.range'_succ]

/-- The generating branch of `getAllWorkOrders`, in closed form. -/
theorem getAllWorkOrders_of_ready (op : FinalizeAggregationOperator) (part_id : Nat)
    (c : WorkOrdersContainer WorkOrder) (qc : QueryContext)
    (agg_state : AggregationOperationState)
    (hmet : op.blocking_dependencies_met_[part_id]? = some true)
    (hstarted : op.started_[part_id]? = some false)
    (hagg : qc.getAggregationState op.aggr_state_index_ part_id = some agg_state) :
    op.getAllWorkOrders part_id c qc =
      some (true, { op with started_ := op.started_.set part_id true },
        { normal_workorders := c.normal_workorders ++
            (List.range agg_state.getNumFinalizationPartitions).map (fun state_part_id =>
              (⟨op.op_index_, part_id,
                WorkOrder.FinalizeAggregationWorkOrder op.query_id_ part_id state_part_id
                  agg_state (qc.getInsertDestination op.output_destination_index_)⟩ :
                QueuedWorkOrder WorkOrder))
          rebuild_workorders := c.rebuild_workorders }) := by
  have hlt : part_id < op.started_.length := by
    rcases List.getElem?_eq_some.mp hstarted with ⟨h, _⟩
    exact h
  have hset : (op.started_.set part_id true)[part_id]? = some true := by
    rw [List.getElem?_set]
    simp [hlt]
  unfold getAllWorkOrders
  simp only [hmet, hstarted, hagg, hset, Bool.not_false, Bool.and_self, if_true]
  rw [getAllWorkOrdersLoop_eq _ part_id agg_state qc _ 0 c rfl, List.range_eq_range']
  rfl

/-- The other branch of `getAllWorkOrders`: nothing changes and the current
value of `started_[part_id]` is returned. -/
theorem getAllWorkOrders_of_not_ready (op : FinalizeAggregationOperator) (part_id : Nat)
    (c : WorkOrdersContainer WorkOrder) (qc : QueryContext) (met started : Bool)
    (hmet : op.blocking_dependencies_met_[part_id]? = some met)
    (hstarted : op.started_[part_id]? = some started)
    (hnot : (met && !started) = false) :
    op.getAllWorkOrders part_id c qc = some (started, op, c) := by
  unfold getAllWorkOrders
  simp [hmet, hstarted, hnot]

/-- A successful `getAllWorkOrders` leaves the operator as it was or sets
`started_[part_id]`. -/
theorem getAllWorkOrders_operator (op : FinalizeAggregationOperator) (part_id : Nat)
    (c : WorkOrdersContainer WorkOrder) (qc : QueryContext) (r : Bool)
    (op1 : FinalizeAggregationOperator) (c1 : WorkOrdersContainer WorkOrder)
    (h : op.getAllWorkOrders part_id c qc = some (r, op1, c1)) :
    op1 = op ∨ op1 = { op with started_ := op.started_.set part_id true } := by
  unfold getAllWorkOrders at h
  split at h
  · split at h
    · split at h
      · cases h
      · dsimp only at h
        split at h
        · simp only [Option.some.injEq, Prod.mk.injEq] at h
          exact Or.inr h.2.1.symm
        · cases h
    · simp only [Option.some.injEq, Prod.mk.injEq] at h
      exact Or.inl h.2.1.symm
  · cases h

/-- A successful `getAllWorkOrderProtos` leaves the operator as it was or sets
`started_[0]`. -/
theorem getAllWorkOrderProtos_operator (op : FinalizeAggregationOperator)
    (c : WorkOrderProtosContainer) (r : Bool)
    (op1 : FinalizeAggregationOperator) (c1 : WorkOrderProtosContainer)
    (h : op.getAllWorkOrderProtos c = some (r, op1, c1)) :
    op1 = op ∨ op1 = { op with started_ := op.started_.set 0 true } := by
  unfold getAllWorkOrderProtos at h
  split at h
  · split at h
    · dsimp only at h
      split at h
      · simp only [Option.some.injEq, Prod.mk.injEq] at h
        exact Or.inr h.2.1.symm
      · cases h
    · simp only [Option.some.injEq, Prod.mk.injEq] at h
      exact Or.inl h.2.1.symm
  · cases h

/-- Setting `started_[q]` keeps a partition that was started, started. -/
theorem started_set_true (l : List Bool) (q p : Nat) (h : l[p]? = some true) :
    (l.set q true)[p]? = some true := by
  rw [List.getElem?_set]
  by_cases hqp : q = p
  · subst hqp
    have hlt : q < l.length := by
      rcases List.getElem?_eq_some.mp h with ⟨hl, _⟩
      exact hl
    simp [hlt]
  · simp [hqp, h]

/-- No event resets `started_[p]` or shortens `blocking_dependencies_met_`. -/
theorem applyEvent_started (op op1 : FinalizeAggregationOperator) (e : Event) (p : Nat)
    (hlen : p < op.blocking_dependencies_met_.length)
    (hstarted : op.started_[p]? = some true)
    (h : op.applyEvent e = some op1) :
    p < op1.blocking_dependencies_met_.length ∧ op1.started_[p]? = some true := by
  cases e with
  | getAllWorkOrders q c qc =>
      simp only [applyEvent, Option.map_eq_some'] at h
      obtain ⟨⟨r, op2, c2⟩, hcall, hop⟩ := h
      simp only at hop
      subst hop
      rcases getAllWorkOrders_operator op q c qc r op2 c2 hcall with h1 | h1
      · rw [h1]; exact ⟨hlen, hstarted⟩
      · rw [h1]; exact ⟨hlen, started_set_true _ q p hstarted⟩
  | getAllWorkOrderProtos c =>
      simp only [applyEvent, Option.map_eq_some'] at h
      obtain ⟨⟨r, op2, c2⟩, hcall, hop⟩ := h
      simp only at hop
      subst hop
      rcases getAllWorkOrderProtos_operator op c r op2 c2 hcall with h1 | h1
      · rw [h1]; exact ⟨hlen, hstarted⟩
      · rw [h1]; exact ⟨hlen, started_set_true _ 0 p hstarted⟩
  | setBlockingDependenciesMet q v =>
      simp only [applyEvent, setBlockingDependenciesMet] at h
      split at h
      · simp only [Option.some.injEq] at h
        subst h
        exact ⟨by simpa using hlen, hstarted⟩
      · cases h

/-- No sequence of events resets `started_[p]` or shortens
`blocking_dependencies_met_`. -/
theorem applyEvents_started (p : Nat) :
    ∀ (events : List Event) (op op1 : FinalizeAggregationOperator),
      p < op.blocking_dependencies_met_.length →
      op.started_[p]? = some true →
      op.applyEvents events = some op1 →
      p < op1.blocking_dependencies_met_.length ∧ op1.started_[p]? = some true := by
  intro events
  induction events with
  | nil =>
      intro op op1 hlen hstarted h
      simp only [applyEvents, Option.some.injEq] at h
      subst h
      exact ⟨hlen, hstarted⟩
  | cons e es ih =>
      intro op op1 hlen hstarted h
      simp only [applyEvents] at h
      cases he : op.applyEvent e with
      | none => rw [he] at h; cases h
      | some op2 =>
          rw [he] at h
          obtain ⟨hlen2, hstarted2⟩ := applyEvent_started op op2 e p hlen hstarted he
          exact ih op2 op1 hlen2 hstarted2 h

/-- On a started partition `getAllWorkOrders` returns true and changes
nothing. -/
theorem getAllWorkOrders_of_started (op : FinalizeAggregationOperator) (p : Nat)
    (c : WorkOrdersContainer WorkOrder) (qc : QueryContext)
    (hlen : p < op.blocking_dependencies_met_.length)
    (hstarted : op.started_[p]? = some true) :
    op.getAllWorkOrders p c qc = some (true, op, c) := by
  obtain ⟨met, hmet⟩ : ∃ met, op.blocking_dependencies_met_[p]? = some met :=
    ⟨_, List.getElem?_eq_getElem hlen⟩
  exact getAllWorkOrders_of_not_ready op p c qc met true hmet hstarted (by simp)

end FinalizeAggregationOperator

/-! ## The completion predicates of `QueryManagerSingleNode` -/

/-- C1: `checkNormalExecutionOver(op, part)` returns true if and only if all
dependencies of `(op, part)` are met, the container holds no normal work order
for `(op, part)`, the number of queued normal work orders of `(op, part)` is 0
and `(op, part)` has done generating work orders. -/
theorem checkNormalExecutionOver_iff {W : Type} (qm : QueryManagerSingleNode W)
    (op part : Nat) :
    qm.checkNormalExecutionOver op part = true ↔
      (qm.checkAllDependenciesMet op part = true ∧
        qm.workorders_container_.normalQueue op part = [] ∧
        qm.query_exec_state_.getNumQueuedWorkOrders op part = 0 ∧
        qm.query_exec_state_.hasDoneGenerationWorkOrders op part = true) := by
  rw [← WorkOrdersContainer.hasNormalWorkOrder_eq_false_iff]
  unfold QueryManagerSingleNode.checkNormalExecutionOver
  simp only [Bool.and_eq_true, Bool.not_eq_true', beq_iff_eq]
  tauto

/-- C2: `checkRebuildOver(op, part)` returns true if and only if the rebuild
has been initiated for `(op, part)`, the container holds no rebuild work order
for `(op, part)` and the number of in-flight rebuild work orders of
`(op, part)` is 0. -/
theorem checkRebuildOver_iff {W : Type} (qm : QueryManagerSingleNode W) (op part : Nat) :
    qm.checkRebuildOver op part = true ↔
      (qm.query_exec_state_.hasRebuildInitiated op part = true ∧
        qm.workorders_container_.rebuildQueue op part = [] ∧
        qm.query_exec_state_.getNumRebuildWorkOrders op part = 0) := by
  rw [← WorkOrdersContainer.hasRebuildWorkOrder_eq_false_iff]
  unfold QueryManagerSingleNode.checkRebuildOver
  simp only [Bool.and_eq_true, Bool.not_eq_true', beq_iff_eq]
  tauto

/-- C3: for an operator `op` with entry `n` in `output_num_partitions_`, the
operator-level `checkRebuildOver(op)` returns a value, and that value is true
if and only if the per-partition `checkRebuildOver(op, p)` is true for every
`p < n`; it is true when `n = 0` and false as soon as one output partition's
rebuild is not over. -/
theorem checkRebuildOverIndex_iff {W : Type} (qm : QueryManagerSingleNode W) (op n : Nat)
    (hn : qm.output_num_partitions_.lookup op = some n) :
    (∃ b, qm.checkRebuildOverIndex op = some b) ∧
      (qm.checkRebuildOverIndex op = some true ↔
        ∀ p, p < n → qm.checkRebuildOver op p = true) ∧
      (n = 0 → qm.checkRebuildOverIndex op = some true) ∧
      (∀ p, p < n → qm.checkRebuildOver op p = false →
        qm.checkRebuildOverIndex op = some false) := by
  have hloop := QueryManagerSingleNode.checkRebuildOverLoop_eq_true_iff qm op n (n - 0) 0 rfl
  have hval : qm.checkRebuildOverIndex op = some (qm.checkRebuildOverLoop op n 0) := by
    unfold QueryManagerSingleNode.checkRebuildOverIndex
    rw [hn]
  have hiff : qm.checkRebuildOverIndex op = some true ↔
      ∀ p, p < n → qm.checkRebuildOver op p = true := by
    rw [hval, Option.some.injEq, hloop]
    constructor
    · intro h p hp; exact h p (Nat.zero_le p) hp
    · intro h p _ hp; exact h p hp
  refine ⟨⟨_, hval⟩, hiff, ?_, ?_⟩
  · intro h0
    apply hiff.mpr
    intro p hp
    omega
  · intro p hp hfalse
    rw [hval]
    cases hb : qm.checkRebuildOverLoop op n 0 with
    | false => rfl
    | true =>
        have := hloop.mp hb p (Nat.zero_le p) hp
        rw [hfalse] at this
        cases this

/-- Witness of C3: operator 4 of `sampleRebuiltManager` has two output
partitions. -/
theorem checkRebuildOverIndex_iff_witness :
    sampleRebuiltManager.output_num_partitions_.lookup 4 = some 2 ∧
      ((∃ b, sampleRebuiltManager.checkRebuildOverIndex 4 = some b) ∧
        (sampleRebuiltManager.checkRebuildOverIndex 4 = some true ↔
          ∀ p, p < 2 → sampleRebuiltManager.checkRebuildOver 4 p = true) ∧
        (2 = 0 → sampleRebuiltManager.checkRebuildOverIndex 4 = some true) ∧
        (∀ p, p < 2 → sampleRebuiltManager.checkRebuildOver 4 p = false →
          sampleRebuiltManager.checkRebuildOverIndex 4 = some false)) :=
  ⟨by decide, checkRebuildOverIndex_iff sampleRebuiltManager 4 2 (by decide)⟩

/-- C4, as stated, fails: in `sampleUndispatchedManager` the spec's done
formula holds for `(0, 0)` while the code's completion condition does not,
because a generated work order still waits in the container. -/
theorem specPartitionDone_not_iff_counterexample :
    ¬ (sampleUndispatchedManager.checkPartitionExecutionOver 0 0 = true ↔
        sampleUndispatchedManager.specPartitionDone 0 0 = true) := by
  decide

/-- C4, amended: the code's completion condition for `(op, part)` holds if and
only if the spec's done formula holds and, in addition, the dependencies of
`(op, part)` are met, the container holds no normal work order for it and,
when the operator requires a rebuild, the container holds no rebuild work
order for it. -/
theorem checkPartitionExecutionOver_iff_specPartitionDone {W : Type}
    (qm : QueryManagerSingleNode W) (op part : Nat) :
    qm.checkPartitionExecutionOver op part = true ↔
      (qm.specPartitionDone op part = true ∧
        qm.checkAllDependenciesMet op part = true ∧
        qm.workorders_container_.normalQueue op part = [] ∧
        (qm.query_exec_state_.isRebuildRequired op = true →
          qm.workorders_container_.rebuildQueue op part = [])) := by
  rw [← WorkOrdersContainer.hasNormalWorkOrder_eq_false_iff,
    ← WorkOrdersContainer.hasRebuildWorkOrder_eq_false_iff]
  unfold QueryManagerSingleNode.checkPartitionExecutionOver
    QueryManagerSingleNode.specPartitionDone
    QueryManagerSingleNode.checkNormalExecutionOver
    QueryManagerSingleNode.checkRebuildOver
    QueryManagerSingleNode.checkAllDependenciesMet
    QueryExecutionState.isRebuildRequired
    QueryExecutionState.getNumQueuedWorkOrders
    QueryExecutionState.hasDoneGenerationWorkOrders
    QueryExecutionState.hasRebuildInitiated
    QueryExecutionState.getNumRebuildWorkOrders
  cases qm.query_exec_state_.rebuild_required op <;>
    simp only [Bool.and_eq_true, Bool.or_eq_true, Bool.not_eq_true', beq_iff_eq,
      Bool.not_false, Bool.not_true, Bool.true_or, Bool.false_or, Bool.or_true] <;>
    tauto

/-! ## Work-order generation of `FinalizeAggregationOperator` -/

/-- C5: for a partition `p` of the operator, `getAllWorkOrders` returns, and it
returns true exactly when, at the call, the blocking dependencies of `p` are
met or `p` was already started; once a call has returned true for `p`, after
any later events (calls for any partition, proto generation, updates of the
dependency flags) a call for `p` returns true and adds no work order to the
container handed to it. -/
theorem getAllWorkOrders_true_iff_generation_complete (op : FinalizeAggregationOperator)
    (p : Nat) (c : WorkOrdersContainer WorkOrder) (qc : QueryContext)
    (agg_state : AggregationOperationState)
    (hmet : p < op.blocking_dependencies_met_.length)
    (hstarted : p < op.started_.length)
    (hagg : qc.getAggregationState op.aggr_state_index_ p = some agg_state) :
    ∃ r op1 c1, op.getAllWorkOrders p c qc = some (r, op1, c1) ∧
      (r = true ↔
        (op.blocking_dependencies_met_[p]? = some true ∨ op.started_[p]? = some true)) ∧
      (r = true →
        ∀ (events : List FinalizeAggregationOperator.Event) (op2 : FinalizeAggregationOperator),
          op1.applyEvents events = some op2 →
          ∀ (c2 : WorkOrdersContainer WorkOrder) (qc2 : QueryContext),
            op2.getAllWorkOrders p c2 qc2 = some (true, op2, c2)) := by
  have later : ∀ (op1 : FinalizeAggregationOperator),
      p < op1.blocking_dependencies_met_.length → op1.started_[p]? = some true →
      ∀ (events : List FinalizeAggregationOperator.Event) (op2 : FinalizeAggregationOperator),
        op1.applyEvents events = some op2 →
        ∀ (c2 : WorkOrdersContainer WorkOrder) (qc2 : QueryContext),
          op2.getAllWorkOrders p c2 qc2 = some (true, op2, c2) := by
    intro op1 hlen1 hst1 events op2 hrun c2 qc2
    obtain ⟨hlen2, hst2⟩ :=
      FinalizeAggregationOperator.applyEvents_started p events op1 op2 hlen1 hst1 hrun
    exact FinalizeAggregationOperator.getAllWorkOrders_of_started op2 p c2 qc2 hlen2 hst2
  have hm : op.blocking_dependencies_met_[p]? = some (op.blocking_dependencies_met_[p]) :=
    List.getElem?_eq_getElem hmet
  have hs : op.started_[p]? = some (op.started_[p]) := List.getElem?_eq_getElem hstarted
  cases hsv : op.started_[p] with
  | true =>
      rw [hsv] at hs
      refine ⟨true, op, c, ?_, ?_, ?_⟩
      · exact FinalizeAggregationOperator.getAllWorkOrders_of_started op p c qc hmet hs
      · simp [hs]
      · intro _
        exact later op hmet hs
  | false =>
      rw [hsv] at hs
      cases hmv : op.blocking_dependencies_met_[p] with
      | true =>
          rw [hmv] at hm
          refine ⟨true, { op with started_ := op.started_.set p true }, _,
            FinalizeAggregationOperator.getAllWorkOrders_of_ready op p c qc agg_state hm hs hagg,
            ?_, ?_⟩
          · simp [hm]
          · intro _
            apply later
            · exact hmet
            · show (op.started_.set p true)[p]? = some true
              rw [List.getElem?_set]
              simp [hstarted]
      | false =>
          rw [hmv] at hm
          refine ⟨false, op, c, ?_, ?_, ?_⟩
          · exact FinalizeAggregationOperator.getAllWorkOrders_of_not_ready op p c qc
              false false hm hs rfl
          · simp [hm, hs]
          · intro h
            cases h

/-- Witness of C5: partition 1 of `sampleFinalizeOperator`. -/
theorem getAllWorkOrders_true_iff_generation_complete_witness :
    ∃ r op1 c1, sampleFinalizeOperator.getAllWorkOrders 1 emptyContainer sampleQueryContext =
        some (r, op1, c1) ∧
      (r = true ↔
        (sampleFinalizeOperator.blocking_dependencies_met_[1]? = some true ∨
          sampleFinalizeOperator.started_[1]? = some true)) ∧
      (r = true →
        ∀ (events : List FinalizeAggregationOperator.Event) (op2 : FinalizeAggregationOperator),
          op1.applyEvents events = some op2 →
          ∀ (c2 : WorkOrdersContainer WorkOrder) (qc2 : QueryContext),
            op2.getAllWorkOrders 1 c2 qc2 = some (true, op2, c2)) :=
  getAllWorkOrders_true_iff_generation_complete sampleFinalizeOperator 1 emptyContainer
    sampleQueryContext sampleAggregationState (by decide) (by decide) (by decide)

/-- C6: `getAllWorkOrders` is idempotent: a second call on the operator and
container left by a first call returns the same value, leaves the operator
unchanged and adds no work order to the container. -/
theorem getAllWorkOrders_idempotent (op : FinalizeAggregationOperator) (p : Nat)
    (c : WorkOrdersContainer WorkOrder) (qc : QueryContext) (r : Bool)
    (op1 : FinalizeAggregationOperator) (c1 : WorkOrdersContainer WorkOrder)
    (h : op.getAllWorkOrders p c qc = some (r, op1, c1)) :
    ∀ qc2 : QueryContext, op1.getAllWorkOrders p c1 qc2 = some (r, op1, c1) := by
  intro qc2
  cases hm : op.blocking_dependencies_met_[p]? with
  | none =>
      unfold FinalizeAggregationOperator.getAllWorkOrders at h
      simp [hm] at h
  | some met =>
      cases hs : op.started_[p]? with
      | none =>
          unfold FinalizeAggregationOperator.getAllWorkOrders at h
          simp [hm, hs] at h
      | some started =>
          have hlen : p < op.blocking_dependencies_met_.length := by
            rcases List.getElem?_eq_some.mp hm with ⟨hl, _⟩
            exact hl
          have hslen : p < op.started_.length := by
            rcases List.getElem?_eq_some.mp hs with ⟨hl, _⟩
            exact hl
          cases hready : (met && !started) with
          | false =>
              rw [FinalizeAggregationOperator.getAllWorkOrders_of_not_ready op p c qc
                met started hm hs hready] at h
              simp only [Option.some.injEq, Prod.mk.injEq] at h
              obtain ⟨hr, hop, hc⟩ := h
              subst hr hop hc
              exact FinalizeAggregationOperator.getAllWorkOrders_of_not_ready op p c qc2
                met started hm hs hready
          | true =>
              simp only [Bool.and_eq_true, Bool.not_eq_true'] at hready
              obtain ⟨hmt, hsf⟩ := hready
              subst hmt hsf
              cases hagg : qc.getAggregationState op.aggr_state_index_ p with
              | none =>
                  unfold FinalizeAggregationOperator.getAllWorkOrders at h
                  simp [hm, hs, hagg] at h
              | some agg_state =>
                  rw [FinalizeAggregationOperator.getAllWorkOrders_of_ready op p c qc
                    agg_state hm hs hagg] at h
                  simp only [Option.some.injEq, Prod.mk.injEq] at h
                  obtain ⟨hr, hop, hc⟩ := h
                  subst hr hop hc
                  apply FinalizeAggregationOperator.getAllWorkOrders_of_started
                  · exact hlen
                  · show (op.started_.set p true)[p]? = some true
                    rw [List.getElem?_set]
                    simp [hslen]

/-- Witness of C6: the first call for partition 1 of `sampleFinalizeOperator`
starts the partition and queues three work orders; the second call repeats the
result and changes nothing. -/
theorem getAllWorkOrders_idempotent_witness :
    sampleFinalizeOperator.getAllWorkOrders 1 emptyContainer sampleQueryContext =
        some (true, sampleStartedFinalizeOperator, sampleFinalizeContainer) ∧
      ∀ qc2 : QueryContext,
        sampleStartedFinalizeOperator.getAllWorkOrders 1 sampleFinalizeContainer qc2 =
          some (true, sampleStartedFinalizeOperator, sampleFinalizeContainer) :=
  have hfirst : sampleFinalizeOperator.getAllWorkOrders 1 emptyContainer sampleQueryContext =
      some (true, sampleStartedFinalizeOperator, sampleFinalizeContainer) :=
    (FinalizeAggregationOperator.getAllWorkOrders_of_ready sampleFinalizeOperator 1
      emptyContainer sampleQueryContext sampleAggregationState
      (by decide) (by decide) (by decide)).trans (by decide)
  ⟨hfirst, getAllWorkOrders_idempotent sampleFinalizeOperator 1 emptyContainer
    sampleQueryContext true sampleStartedFinalizeOperator sampleFinalizeContainer hfirst⟩

/-! ## Work-order generation of `InitializeAggregationOperator` -/

namespace InitializeAggregationOperator

/-- The loop of `getAllWorkOrders` entered at `k` appends one work order for
each initialization partition id from `k` up to the bound, in ascending
order. -/
theorem initializationLoop_eq (op : InitializeAggregationOperator)
    (agg_state : AggregationOperationState) :
    ∀ (d k : Nat) (c : WorkOrdersContainer WorkOrder),
      agg_state.getNumInitializationPartitions - k = d →
      op.getAllWorkOrdersLoop agg_state k c =
        { normal_workorders := c.normal_workorders ++
            (List.range' k d).map (fun part_id =>
              (⟨op.op_index_, 0,
                WorkOrder.InitializeAggregationWorkOrder op.query_id_ part_id agg_state⟩ :
                QueuedWorkOrder WorkOrder))
          rebuild_workorders := c.rebuild_workorders } := by
  intro d
  induction d with
  | zero =>
      intro k c hk
      rw [getAllWorkOrdersLoop]
      have hnk : ¬ k < agg_state.getNumInitializationPartitions := by omega
      simp [hnk]
  | succ d ih =>
      intro k c hk
      rw [getAllWorkOrdersLoop]
      have hkn : k < agg_state.getNumInitializationPartitions := by omega
      simp only [hkn, if_true]
      rw [ih (k + 1) _ (by omega)]
      simp [WorkOrdersContainer.addNormalWorkOrder, List.range'_succ]

/-- The first call of `getAllWorkOrders`, in closed form. -/
theorem firstCall_eq (op : InitializeAggregationOperator)
    (c : WorkOrdersContainer WorkOrder) (qc : QueryContext)
    (agg_state : AggregationOperationState)
    (hstarted : op.started_ = false)
    (hagg : qc.getAggregationState op.aggr_state_index_ 0 = some agg_state) :
    op.getAllWorkOrders c qc =
      some (true, { op with started_ := true },
        { normal_workorders := c.normal_workorders ++
            (List.range agg_state.getNumInitializationPartitions).map (fun part_id =>
              (⟨op.op_index_, 0,
                WorkOrder.InitializeAggregationWorkOrder op.query_id_ part_id agg_state⟩ :
                QueuedWorkOrder WorkOrder))
          rebuild_workorders := c.rebuild_workorders }) := by
  unfold getAllWorkOrders
  simp only [hstarted, hagg, Bool.not_false, if_true]
  rw [initializationLoop_eq op agg_state _ 0 c rfl, List.range_eq_range']
  rfl

/-- A call on a started operator returns true and changes nothing. -/
theorem laterCall_eq (op : InitializeAggregationOperator)
    (c : WorkOrdersContainer WorkOrder) (qc : QueryContext)
    (hstarted : op.started_ = true) :
    op.getAllWorkOrders c qc = some (true, op, c) := by
  unfold getAllWorkOrders
  simp [hstarted]

end InitializeAggregationOperator

/-- C7: `InitializeAggregationOperator::getAllWorkOrders` returns true on every
call and emits work orders on the first call only: whatever the operator
state, a call returns true and leaves the operator started; the call on an
operator not yet started (the first call) marks it started and appends its work
orders, one for each initialization partition id `0, ..., N-1` of the
aggregation state in ascending order, to the normal work orders of the
container; a call on a started operator leaves operator and container as they
were; and every call made on the operator a call leaves returns true again,
leaves the operator as it is and adds no work order to the container handed
to it. -/
theorem initialize_getAllWorkOrders_emits_once (op : InitializeAggregationOperator)
    (c : WorkOrdersContainer WorkOrder) (qc : QueryContext)
    (agg_state : AggregationOperationState)
    (hagg : qc.getAggregationState op.aggr_state_index_ 0 = some agg_state) :
    ∃ op1 c1, op.getAllWorkOrders c qc = some (true, op1, c1) ∧
      op1.started_ = true ∧
      (op.started_ = false →
        op1 = { op with started_ := true } ∧
          c1.normal_workorders = c.normal_workorders ++
            (List.range agg_state.getNumInitializationPartitions).map (fun part_id =>
              (⟨op.op_index_, 0,
                WorkOrder.InitializeAggregationWorkOrder op.query_id_ part_id agg_state⟩ :
                QueuedWorkOrder WorkOrder)) ∧
          c1.rebuild_workorders = c.rebuild_workorders) ∧
      (op.started_ = true → op1 = op ∧ c1 = c) ∧
      ∀ (c2 : WorkOrdersContainer WorkOrder) (qc2 : QueryContext),
        op1.getAllWorkOrders c2 qc2 = some (true, op1, c2) := by
  cases hs : op.started_ with
  | true =>
      refine ⟨op, c, InitializeAggregationOperator.laterCall_eq op c qc hs, hs, ?_, ?_, ?_⟩
      · intro h
        cases h
      · intro _
        exact ⟨rfl, rfl⟩
      · intro c2 qc2
        exact InitializeAggregationOperator.laterCall_eq op c2 qc2 hs
  | false =>
      refine ⟨{ op with started_ := true }, _,
        InitializeAggregationOperator.firstCall_eq op c qc agg_state hs hagg, rfl, ?_, ?_, ?_⟩
      · intro _
        exact ⟨rfl, rfl, rfl⟩
      · intro h
        cases h
      · intro c2 qc2
        exact InitializeAggregationOperator.laterCall_eq _ c2 qc2 rfl

/-- Witness of C7: `sampleInitializeOperator`, not yet started, in the
single-partition query context, whose aggregation state has two
initialization partitions. -/
theorem initialize_getAllWorkOrders_emits_once_witness :
    singlePartitionQueryContext.getAggregationState
        sampleInitializeOperator.aggr_state_index_ 0 = some sampleAggregationState ∧
      ∃ op1 c1, sampleInitializeOperator.getAllWorkOrders emptyContainer
          singlePartitionQueryContext = some (true, op1, c1) ∧
        op1.started_ = true ∧
        (sampleInitializeOperator.started_ = false →
          op1 = { sampleInitializeOperator with started_ := true } ∧
            c1.normal_workorders = emptyContainer.normal_workorders ++
              (List.range sampleAggregationState.getNumInitializationPartitions).map
                (fun part_id =>
                  (⟨sampleInitializeOperator.op_index_, 0,
                    WorkOrder.InitializeAggregationWorkOrder
                      sampleInitializeOperator.query_id_ part_id sampleAggregationState⟩ :
                    QueuedWorkOrder WorkOrder)) ∧
            c1.rebuild_workorders = emptyContainer.rebuild_workorders) ∧
        (sampleInitializeOperator.started_ = true →
          op1 = sampleInitializeOperator ∧ c1 = emptyContainer) ∧
        ∀ (c2 : WorkOrdersContainer WorkOrder) (qc2 : QueryContext),
          op1.getAllWorkOrders c2 qc2 = some (true, op1, c2) :=
  ⟨by decide, initialize_getAllWorkOrders_emits_once sampleInitializeOperator emptyContainer
    singlePartitionQueryContext sampleAggregationState (by decide)⟩

/-- C8: when the blocking dependencies of partition `p` are met and `p` has not
been started, `getAllWorkOrders` returns true, sets `started_[p]` and enqueues
exactly `F = getNumFinalizationPartitions()` normal work orders: one for each
state partition id `0, 1, ..., F-1`, in ascending order, each carrying
partition `p`, all at the back of the queue of `(op_index_, p)`; no other
queue and no rebuild queue changes. -/
theorem getAllWorkOrders_enqueues_one_per_finalization_partition
    (op : FinalizeAggregationOperator) (p : Nat)
    (c : WorkOrdersContainer WorkOrder) (qc : QueryContext)
    (agg_state : AggregationOperationState)
    (hmet : op.blocking_dependencies_met_[p]? = some true)
    (hstarted : op.started_[p]? = some false)
    (hagg : qc.getAggregationState op.aggr_state_index_ p = some agg_state) :
    ∃ op1 c1, op.getAllWorkOrders p c qc = some (true, op1, c1) ∧
      op1.started_[p]? = some true ∧
      c1.normal_workorders = c.normal_workorders ++
        (List.range agg_state.getNumFinalizationPartitions).map (fun state_part_id =>
          (⟨op.op_index_, p,
            WorkOrder.FinalizeAggregationWorkOrder op.query_id_ p state_part_id agg_state
              (qc.getInsertDestination op.output_destination_index_)⟩ :
            QueuedWorkOrder WorkOrder)) ∧
      c1.normal_workorders.length =
        c.normal_workorders.length + agg_state.getNumFinalizationPartitions ∧
      c1.normalQueue op.op_index_ p = c.normalQueue op.op_index_ p ++
        (List.range agg_state.getNumFinalizationPartitions).map (fun state_part_id =>
          WorkOrder.FinalizeAggregationWorkOrder op.query_id_ p state_part_id agg_state
            (qc.getInsertDestination op.output_destination_index_)) ∧
      (∀ op_index part_id, ¬ (op_index = op.op_index_ ∧ part_id = p) →
        c1.normalQueue op_index part_id = c.normalQueue op_index part_id) ∧
      c1.rebuild_workorders = c.rebuild_workorders := by
  have hlt : p < op.started_.length := by
    rcases List.getElem?_eq_some.mp hstarted with ⟨h, _⟩
    exact h
  refine ⟨_, _,
    FinalizeAggregationOperator.getAllWorkOrders_of_ready op p c qc agg_state hmet hstarted hagg,
    ?_, rfl, ?_, ?_, ?_, rfl⟩
  · show (op.started_.set p true)[p]? = some true
    rw [List.getElem?_set]
    simp [hlt]
  · simp
  · have hmap : (List.range agg_state.getNumFinalizationPartitions).map (fun state_part_id =>
        (⟨op.op_index_, p,
          WorkOrder.FinalizeAggregationWorkOrder op.query_id_ p state_part_id agg_state
            (qc.getInsertDestination op.output_destination_index_)⟩ :
          QueuedWorkOrder WorkOrder)) =
        ((List.range agg_state.getNumFinalizationPartitions).map (fun state_part_id =>
          WorkOrder.FinalizeAggregationWorkOrder op.query_id_ p state_part_id agg_state
            (qc.getInsertDestination op.output_destination_index_))).map
          (fun w => (⟨op.op_index_, p, w⟩ : QueuedWorkOrder WorkOrder)) := by
      rw [List.map_map]
      rfl
    rw [hmap]
    exact WorkOrdersContainer.normalQueue_append_same c op.op_index_ p _
  · intro op_index part_id hne
    have hmap : (List.range agg_state.getNumFinalizationPartitions).map (fun state_part_id =>
        (⟨op.op_index_, p,
          WorkOrder.FinalizeAggregationWorkOrder op.query_id_ p state_part_id agg_state
            (qc.getInsertDestination op.output_destination_index_)⟩ :
          QueuedWorkOrder WorkOrder)) =
        ((List.range agg_state.getNumFinalizationPartitions).map (fun state_part_id =>
          WorkOrder.FinalizeAggregationWorkOrder op.query_id_ p state_part_id agg_state
            (qc.getInsertDestination op.output_destination_index_))).map
          (fun w => (⟨op.op_index_, p, w⟩ : QueuedWorkOrder WorkOrder)) := by
      rw [List.map_map]
      rfl
    rw [hmap]
    exact WorkOrdersContainer.normalQueue_append_other c op.op_index_ p _ op_index part_id hne

/-- Witness of C8: partition 1 of `sampleFinalizeOperator`, whose aggregation
state has three finalization partitions. -/
theorem getAllWorkOrders_enqueues_one_per_finalization_partition_witness :
    (sampleFinalizeOperator.blocking_dependencies_met_[1]? = some true ∧
      sampleFinalizeOperator.started_[1]? = some false ∧
      sampleQueryContext.getAggregationState sampleFinalizeOperator.aggr_state_index_ 1 =
        some sampleAggregationState) ∧
    ∃ op1 c1, sampleFinalizeOperator.getAllWorkOrders 1 emptyContainer sampleQueryContext =
        some (true, op1, c1) ∧
      op1.started_[1]? = some true ∧
      c1.normal_workorders = emptyContainer.normal_workorders ++
        (List.range sampleAggregationState.getNumFinalizationPartitions).map
          (fun state_part_id =>
            (⟨sampleFinalizeOperator.op_index_, 1,
              WorkOrder.FinalizeAggregationWorkOrder sampleFinalizeOperator.query_id_ 1
                state_part_id sampleAggregationState
                (sampleQueryContext.getInsertDestination
                  sampleFinalizeOperator.output_destination_index_)⟩ :
              QueuedWorkOrder WorkOrder)) ∧
      c1.normal_workorders.length =
        emptyContainer.normal_workorders.length +
          sampleAggregationState.getNumFinalizationPartitions ∧
      c1.normalQueue sampleFinalizeOperator.op_index_ 1 =
        emptyContainer.normalQueue sampleFinalizeOperator.op_index_ 1 ++
          (List.range sampleAggregationState.getNumFinalizationPartitions).map
            (fun state_part_id =>
              WorkOrder.FinalizeAggregationWorkOrder sampleFinalizeOperator.query_id_ 1
                state_part_id sampleAggregationState
                (sampleQueryContext.getInsertDestination
                  sampleFinalizeOperator.output_destination_index_)) ∧
      (∀ op_index part_id, ¬ (op_index = sampleFinalizeOperator.op_index_ ∧ part_id = 1) →
        c1.normalQueue op_index part_id = emptyContainer.normalQueue op_index part_id) ∧
      c1.rebuild_workorders = emptyContainer.rebuild_workorders :=
  ⟨⟨by decide, by decide, by decide⟩,
    getAllWorkOrders_enqueues_one_per_finalization_partition sampleFinalizeOperator 1
      emptyContainer sampleQueryContext sampleAggregationState
      (by decide) (by decide) (by decide)⟩

/-- C9, as stated, fails: in the single-partition query context the aggregation
state has two initialization partitions, and the first call of
`InitializeAggregationOperator::getAllWorkOrders` adds two normal work orders,
not one. -/
theorem initialize_first_call_not_one_counterexample :
    sampleInitializeOperator.getAllWorkOrders emptyContainer singlePartitionQueryContext =
        some (true, sampleStartedInitializeOperator, sampleInitializeContainer) ∧
      sampleInitializeContainer.normal_workorders.length =
        emptyContainer.normal_workorders.length + 2 ∧
      sampleInitializeContainer.normal_workorders.length ≠
        emptyContainer.normal_workorders.length + 1 :=
  ⟨(InitializeAggregationOperator.firstCall_eq sampleInitializeOperator
      emptyContainer singlePartitionQueryContext sampleAggregationState
      (by decide) (by decide)).trans (by decide),
    by decide, by decide⟩

/-- C9, amended: the first call of `InitializeAggregationOperator::getAllWorkOrders`
(the operator not started) returns true, marks the operator started and adds
exactly `N = getNumInitializationPartitions()` normal work orders of the
aggregation state of partition 0, one for each partition id `0, ..., N-1` in
ascending order; it adds exactly one work order if and only if `N = 1`. -/
theorem initialize_first_call_adds_one_per_initialization_partition
    (op : InitializeAggregationOperator)
    (c : WorkOrdersContainer WorkOrder) (qc : QueryContext)
    (agg_state : AggregationOperationState)
    (hstarted : op.started_ = false)
    (hagg : qc.getAggregationState op.aggr_state_index_ 0 = some agg_state) :
    ∃ op1 c1, op.getAllWorkOrders c qc = some (true, op1, c1) ∧
      op1.started_ = true ∧
      c1.normal_workorders = c.normal_workorders ++
        (List.range agg_state.getNumInitializationPartitions).map (fun part_id =>
          (⟨op.op_index_, 0,
            WorkOrder.InitializeAggregationWorkOrder op.query_id_ part_id agg_state⟩ :
            QueuedWorkOrder WorkOrder)) ∧
      c1.normal_workorders.length =
        c.normal_workorders.length + agg_state.getNumInitializationPartitions ∧
      (c1.normal_workorders.length = c.normal_workorders.length + 1 ↔
        agg_state.getNumInitializationPartitions = 1) ∧
      c1.rebuild_workorders = c.rebuild_workorders := by
  refine ⟨_, _,
    InitializeAggregationOperator.firstCall_eq op c qc agg_state hstarted hagg,
    rfl, rfl, ?_, ?_, rfl⟩
  · simp
  · simp

/-- Witness of the amended C9: `sampleInitializeOperator` in the
single-partition query context. -/
theorem initialize_first_call_adds_one_per_initialization_partition_witness :
    (sampleInitializeOperator.started_ = false ∧
      singlePartitionQueryContext.getAggregationState
        sampleInitializeOperator.aggr_state_index_ 0 = some sampleAggregationState) ∧
    ∃ op1 c1, sampleInitializeOperator.getAllWorkOrders emptyContainer
        singlePartitionQueryContext = some (true, op1, c1) ∧
      op1.started_ = true ∧
      c1.normal_workorders = emptyContainer.normal_workorders ++
        (List.range sampleAggregationState.getNumInitializationPartitions).map (fun part_id =>
          (⟨sampleInitializeOperator.op_index_, 0,
            WorkOrder.InitializeAggregationWorkOrder sampleInitializeOperator.query_id_
              part_id sampleAggregationState⟩ :
            QueuedWorkOrder WorkOrder)) ∧
      c1.normal_workorders.length =
        emptyContainer.normal_workorders.length +
          sampleAggregationState.getNumInitializationPartitions ∧
      (c1.normal_workorders.length = emptyContainer.normal_workorders.length + 1 ↔
        sampleAggregationState.getNumInitializationPartitions = 1) ∧
      c1.rebuild_workorders = emptyContainer.rebuild_workorders :=
  ⟨⟨by decide, by decide⟩,
    initialize_first_call_adds_one_per_initialization_partition sampleInitializeOperator
      emptyContainer singlePartitionQueryContext sampleAggregationState
      (by decide) (by decide)⟩

/-- C10: `getAllWorkOrders` creates a work order for `(op, part_id)` only if the
blocking dependencies of `part_id` are met: when
`blocking_dependencies_met_[part_id]` is false the call returns the current
`started_[part_id]`, leaves the operator (and so `started_[part_id]`) as it
was and adds no work order to the container. -/
theorem getAllWorkOrders_blocked_adds_nothing (op : FinalizeAggregationOperator)
    (part_id : Nat) (c : WorkOrdersContainer WorkOrder) (qc : QueryContext)
    (started : Bool)
    (hmet : op.blocking_dependencies_met_[part_id]? = some false)
    (hstarted : op.started_[part_id]? = some started) :
    op.getAllWorkOrders part_id c qc = some (started, op, c) :=
  FinalizeAggregationOperator.getAllWorkOrders_of_not_ready op part_id c qc false started
    hmet hstarted (by simp)

/-- Witness of C10: partition 0 of `sampleFinalizeOperator` still waits for its
blocking dependencies. -/
theorem getAllWorkOrders_blocked_adds_nothing_witness :
    (sampleFinalizeOperator.blocking_dependencies_met_[0]? = some false ∧
      sampleFinalizeOperator.started_[0]? = some false) ∧
    sampleFinalizeOperator.getAllWorkOrders 0 emptyContainer sampleQueryContext =
      some (false, sampleFinalizeOperator, emptyContainer) :=
  ⟨⟨by decide, by decide⟩,
    getAllWorkOrders_blocked_adds_nothing sampleFinalizeOperator 0 emptyContainer
      sampleQueryContext false (by decide) (by decide)⟩

/-! ## Proto generation of `FinalizeAggregationOperator` -/

namespace FinalizeAggregationOperator

/-- The loop of `getAllWorkOrderProtos` entered at `k` appends one proto for
each partition id from `k` up to `num_partitions_`, in ascending order. -/
theorem getAllWorkOrderProtosLoop_eq (op : FinalizeAggregationOperator) :
    ∀ (d k : Nat) (c : WorkOrderProtosContainer),
      op.num_partitions_ - k = d →
      op.getAllWorkOrderProtosLoop k c =
        { protos := c.protos ++
            (List.range' k d).map (fun part_id =>
              (op.op_index_,
                ({ work_order_type := WorkOrderType.FINALIZE_AGGREGATION
                   query_id := op.query_id_
                   aggr_state_index := op.aggr_state_index_
                   partition_id := part_id
                   state_partition_id := 0
                   insert_destination_index := op.output_destination_index_ } :
                  WorkOrderProto))) } := by
  intro d
  induction d with
  | zero =>
      intro k c hk
      rw [getAllWorkOrderProtosLoop]
      have hnk : ¬ k < op.num_partitions_ := by omega
      simp [hnk]
  | succ d ih =>
      intro k c hk
      rw [getAllWorkOrderProtosLoop]
      have hkn : k < op.num_partitions_ := by omega
      simp only [hkn, if_true]
      rw [ih (k + 1) _ (by omega)]
      simp [WorkOrderProtosContainer.addWorkOrderProto, List.range'_succ]

/-- The generating branch of `getAllWorkOrderProtos`, in closed form. -/
theorem getAllWorkOrderProtos_of_ready (op : FinalizeAggregationOperator)
    (c : WorkOrderProtosContainer)
    (hmet : op.blocking_dependencies_met_[0]? = some true)
    (hstarted : op.started_[0]? = some false) :
    op.getAllWorkOrderProtos c =
      some (true, { op with started_ := op.started_.set 0 true },
        { protos := c.protos ++
            (List.range op.num_partitions_).map (fun part_id =>
              (op.op_index_,
                ({ work_order_type := WorkOrderType.FINALIZE_AGGREGATION
                   query_id := op.query_id_
                   aggr_state_index := op.aggr_state_index_
                   partition_id := part_id
                   state_partition_id := 0
                   insert_destination_index := op.output_destination_index_ } :
                  WorkOrderProto))) }) := by
  have hlt : 0 < op.started_.length := by
    rcases List.getElem?_eq_some.mp hstarted with ⟨h, _⟩
    exact h
  have hset : (op.started_.set 0 true)[0]? = some true := by
    rw [List.getElem?_set]
    simp [hlt]
  unfold getAllWorkOrderProtos
  simp only [hmet, hstarted, hset, Bool.not_false, Bool.and_self, if_true]
  rw [getAllWorkOrderProtosLoop_eq _ _ 0 c rfl, List.range_eq_range']
  rfl

/-- The other branch of `getAllWorkOrderProtos`: nothing changes and the
current value of `started_[0]` is returned. -/
theorem getAllWorkOrderProtos_of_not_ready (op : FinalizeAggregationOperator)
    (c : WorkOrderProtosContainer) (met started : Bool)
    (hmet : op.blocking_dependencies_met_[0]? = some met)
    (hstarted : op.started_[0]? = some started)
    (hnot : (met && !started) = false) :
    op.getAllWorkOrderProtos c = some (started, op, c) := by
  unfold getAllWorkOrderProtos
  simp [hmet, hstarted, hnot]

end FinalizeAggregationOperator

/-- C11, as stated, fails: `sampleHalfReadyFinalizeOperator` has the blocking
dependencies of partition 0 met and those of partition 1 not met, and
`getAllWorkOrderProtos` adds a proto with `partition_id = 1` all the same. -/
theorem getAllWorkOrderProtos_unmet_partition_counterexample :
    sampleHalfReadyFinalizeOperator.getAllWorkOrderProtos emptyProtosContainer =
        some (true, sampleHalfReadyStartedFinalizeOperator, sampleFinalizeProtosContainer) ∧
      (∃ e ∈ sampleFinalizeProtosContainer.protos, e.2.partition_id = 1) ∧
      sampleHalfReadyFinalizeOperator.blocking_dependencies_met_[1]? = some false :=
  ⟨(FinalizeAggregationOperator.getAllWorkOrderProtos_of_ready
      sampleHalfReadyFinalizeOperator emptyProtosContainer (by decide) (by decide)).trans
      (by decide),
    by decide, by decide⟩

/-- C11, amended: `getAllWorkOrderProtos` creates protos only if the blocking
dependencies of partition 0 are met: the call returns, and for every proto it
adds, `blocking_dependencies_met_[0]` holds and `started_[0]` is false at the
time of the call, the proto is added under `op_index_` and its `partition_id`
is below `num_partitions_`; `blocking_dependencies_met_[p]` is not read for
`p` other than 0: on an operator with any other flag vector that agrees at
index 0, the call returns the same value, sets the same `started_` and adds
the same protos. -/
theorem getAllWorkOrderProtos_only_if_partition_zero_met (op : FinalizeAggregationOperator)
    (c : WorkOrderProtosContainer) (met started : Bool)
    (hmet : op.blocking_dependencies_met_[0]? = some met)
    (hstarted : op.started_[0]? = some started) :
    ∃ r op1 added, op.getAllWorkOrderProtos c = some (r, op1, { protos := c.protos ++ added }) ∧
      (∀ e ∈ added,
        op.blocking_dependencies_met_[0]? = some true ∧ op.started_[0]? = some false ∧
          e.1 = op.op_index_ ∧ e.2.partition_id < op.num_partitions_) ∧
      (∀ flags : List Bool, flags[0]? = op.blocking_dependencies_met_[0]? →
        FinalizeAggregationOperator.getAllWorkOrderProtos
            { op with blocking_dependencies_met_ := flags } c =
          some (r, { op1 with blocking_dependencies_met_ := flags },
            { protos := c.protos ++ added })) := by
  cases hready : (met && !started) with
  | false =>
      refine ⟨started, op, [], ?_, ?_, ?_⟩
      · rw [FinalizeAggregationOperator.getAllWorkOrderProtos_of_not_ready op c met started
          hmet hstarted hready]
        simp
      · intro e he
        cases he
      · intro flags hflags
        rw [FinalizeAggregationOperator.getAllWorkOrderProtos_of_not_ready
          { op with blocking_dependencies_met_ := flags } c met started
          (hflags.trans hmet) hstarted hready]
        simp
  | true =>
      simp only [Bool.and_eq_true, Bool.not_eq_true'] at hready
      obtain ⟨hm, hs⟩ := hready
      subst hm hs
      refine ⟨true, _, _,
        FinalizeAggregationOperator.getAllWorkOrderProtos_of_ready op c hmet hstarted, ?_, ?_⟩
      · intro e he
        rcases List.mem_map.mp he with ⟨part_id, hp, rfl⟩
        exact ⟨hmet, hstarted, rfl, List.mem_range.mp hp⟩
      · intro flags hflags
        exact FinalizeAggregationOperator.getAllWorkOrderProtos_of_ready
          { op with blocking_dependencies_met_ := flags } c (hflags.trans hmet) hstarted

/-- Witness of the amended C11: `sampleHalfReadyFinalizeOperator`. -/
theorem getAllWorkOrderProtos_only_if_partition_zero_met_witness :
    (sampleHalfReadyFinalizeOperator.blocking_dependencies_met_[0]? = some true ∧
      sampleHalfReadyFinalizeOperator.started_[0]? = some false) ∧
    ∃ r op1 added, sampleHalfReadyFinalizeOperator.getAllWorkOrderProtos emptyProtosContainer =
        some (r, op1, { protos := emptyProtosContainer.protos ++ added }) ∧
      (∀ e ∈ added,
        sampleHalfReadyFinalizeOperator.blocking_dependencies_met_[0]? = some true ∧
          sampleHalfReadyFinalizeOperator.started_[0]? = some false ∧
          e.1 = sampleHalfReadyFinalizeOperator.op_index_ ∧
          e.2.partition_id < sampleHalfReadyFinalizeOperator.num_partitions_) ∧
      (∀ flags : List Bool,
        flags[0]? = sampleHalfReadyFinalizeOperator.blocking_dependencies_met_[0]? →
        FinalizeAggregationOperator.getAllWorkOrderProtos
            { sampleHalfReadyFinalizeOperator with blocking_dependencies_met_ := flags }
            emptyProtosContainer =
          some (r, { op1 with blocking_dependencies_met_ := flags },
            { protos := emptyProtosContainer.protos ++ added })) :=
  ⟨⟨by decide, by decide⟩,
    getAllWorkOrderProtos_only_if_partition_zero_met sampleHalfReadyFinalizeOperator
      emptyProtosContainer true false (by decide) (by decide)⟩

/-- C12: every proto that `getAllWorkOrderProtos` adds to the container has
`state_partition_id = 0`, whatever the operator (its partitions, its number of
partitions, its aggregation state index) and the container; the call reads no
aggregation state. -/
theorem getAllWorkOrderProtos_state_partition_id_zero (op : FinalizeAggregationOperator)
    (c : WorkOrderProtosContainer) (met started : Bool)
    (hmet : op.blocking_dependencies_met_[0]? = some met)
    (hstarted : op.started_[0]? = some started) :
    ∃ r op1 added, op.getAllWorkOrderProtos c = some (r, op1, { protos := c.protos ++ added }) ∧
      ∀ e ∈ added, e.2.state_partition_id = 0 := by
  cases hready : (met && !started) with
  | false =>
      refine ⟨started, op, [], ?_, ?_⟩
      · rw [FinalizeAggregationOperator.getAllWorkOrderProtos_of_not_ready op c met started
          hmet hstarted hready]
        simp
      · intro e he
        cases he
  | true =>
      simp only [Bool.and_eq_true, Bool.not_eq_true'] at hready
      obtain ⟨hm, hs⟩ := hready
      subst hm hs
      refine ⟨true, _, _,
        FinalizeAggregationOperator.getAllWorkOrderProtos_of_ready op c hmet hstarted, ?_⟩
      intro e he
      rcases List.mem_map.mp he with ⟨part_id, _, rfl⟩
      rfl

/-- Witness of C12: `sampleHalfReadyFinalizeOperator`, which adds two protos. -/
theorem getAllWorkOrderProtos_state_partition_id_zero_witness :
    (sampleHalfReadyFinalizeOperator.blocking_dependencies_met_[0]? = some true ∧
      sampleHalfReadyFinalizeOperator.started_[0]? = some false) ∧
    ∃ r op1 added, sampleHalfReadyFinalizeOperator.getAllWorkOrderProtos emptyProtosContainer =
        some (r, op1, { protos := emptyProtosContainer.protos ++ added }) ∧
      ∀ e ∈ added, e.2.state_partition_id = 0 :=
  ⟨⟨by decide, by decide⟩,
    getAllWorkOrderProtos_state_partition_id_zero sampleHalfReadyFinalizeOperator
      emptyProtosContainer true false (by decide) (by decide)⟩

/-- C14: `getAllWorkOrderProtos` returns; when `blocking_dependencies_met_[0]`
holds and `started_[0]` is false it adds exactly `num_partitions_` protos under
`op_index_`, one for each `partition_id` `0, 1, ..., num_partitions_-1` in
ascending order, each of type `FINALIZE_AGGREGATION` with the operator's
`query_id_`, `aggr_state_index_` and `output_destination_index_`; in every
other state it adds none and leaves the operator as it was; the value returned
is `started_[0]` after the call, and a second call returns the same value,
leaves the operator as it is and adds no proto. -/
theorem getAllWorkOrderProtos_adds_one_per_partition (op : FinalizeAggregationOperator)
    (c : WorkOrderProtosContainer) (met started : Bool)
    (hmet : op.blocking_dependencies_met_[0]? = some met)
    (hstarted : op.started_[0]? = some started) :
    ∃ r op1 c1, op.getAllWorkOrderProtos c = some (r, op1, c1) ∧
      ((met = true ∧ started = false) →
        c1.protos = c.protos ++
          (List.range op.num_partitions_).map (fun part_id =>
            (op.op_index_,
              ({ work_order_type := WorkOrderType.FINALIZE_AGGREGATION
                 query_id := op.query_id_
                 aggr_state_index := op.aggr_state_index_
                 partition_id := part_id
                 state_partition_id := 0
                 insert_destination_index := op.output_destination_index_ } :
                WorkOrderProto))) ∧
          c1.protos.length = c.protos.length + op.num_partitions_) ∧
      (¬ (met = true ∧ started = false) → c1 = c ∧ op1 = op) ∧
      op1.started_[0]? = some r ∧
      ∀ c2 : WorkOrderProtosContainer, op1.getAllWorkOrderProtos c2 = some (r, op1, c2) := by
  cases hready : (met && !started) with
  | false =>
      have hnot : ¬ (met = true ∧ started = false) := by
        intro h
        rw [h.1, h.2] at hready
        cases hready
      refine ⟨started, op, c,
        FinalizeAggregationOperator.getAllWorkOrderProtos_of_not_ready op c met started
          hmet hstarted hready, ?_, ?_, hstarted, ?_⟩
      · intro h
        exact absurd h hnot
      · intro _
        exact ⟨rfl, rfl⟩
      · intro c2
        exact FinalizeAggregationOperator.getAllWorkOrderProtos_of_not_ready op c2 met started
          hmet hstarted hready
  | true =>
      simp only [Bool.and_eq_true, Bool.not_eq_true'] at hready
      obtain ⟨hm, hs⟩ := hready
      subst hm hs
      have hlt : 0 < op.started_.length := by
        rcases List.getElem?_eq_some.mp hstarted with ⟨h, _⟩
        exact h
      have hset : (op.started_.set 0 true)[0]? = some true := by
        rw [List.getElem?_set]
        simp [hlt]
      refine ⟨true, { op with started_ := op.started_.set 0 true }, _,
        FinalizeAggregationOperator.getAllWorkOrderProtos_of_ready op c hmet hstarted,
        ?_, ?_, hset, ?_⟩
      · intro _
        refine ⟨rfl, ?_⟩
        simp
      · intro h
        exact absurd ⟨rfl, rfl⟩ h
      · intro c2
        exact FinalizeAggregationOperator.getAllWorkOrderProtos_of_not_ready
          { op with started_ := op.started_.set 0 true } c2 true true hmet hset rfl

/-- Witness of C14: `sampleHalfReadyFinalizeOperator`, with two partitions. -/
theorem getAllWorkOrderProtos_adds_one_per_partition_witness :
    (sampleHalfReadyFinalizeOperator.blocking_dependencies_met_[0]? = some true ∧
      sampleHalfReadyFinalizeOperator.started_[0]? = some false) ∧
    ∃ r op1 c1, sampleHalfReadyFinalizeOperator.getAllWorkOrderProtos emptyProtosContainer =
        some (r, op1, c1) ∧
      ((true = true ∧ false = false) →
        c1.protos = emptyProtosContainer.protos ++
          (List.range sampleHalfReadyFinalizeOperator.num_partitions_).map (fun part_id =>
            (sampleHalfReadyFinalizeOperator.op_index_,
              ({ work_order_type := WorkOrderType.FINALIZE_AGGREGATION
                 query_id := sampleHalfReadyFinalizeOperator.query_id_
                 aggr_state_index := sampleHalfReadyFinalizeOperator.aggr_state_index_
                 partition_id := part_id
                 state_partition_id := 0
                 insert_destination_index :=
                   sampleHalfReadyFinalizeOperator.output_destination_index_ } :
                WorkOrderProto))) ∧
          c1.protos.length =
            emptyProtosContainer.protos.length +
              sampleHalfReadyFinalizeOperator.num_partitions_) ∧
      (¬ (true = true ∧ false = false) →
        c1 = emptyProtosContainer ∧ op1 = sampleHalfReadyFinalizeOperator) ∧
      op1.started_[0]? = some r ∧
      ∀ c2 : WorkOrderProtosContainer, op1.getAllWorkOrderProtos c2 = some (r, op1, c2) :=
  ⟨⟨by decide, by decide⟩,
    getAllWorkOrderProtos_adds_one_per_partition sampleHalfReadyFinalizeOperator
      emptyProtosContainer true false (by decide) (by decide)⟩

/-! ## The frame of `FinalizeAggregationOperator::getAllWorkOrders` -/

namespace FinalizeAggregationOperator

/-- The work orders of the generating branch go to the queue of
`(op_index_, part_id)` only: every other queue reads as before. -/
theorem generated_normalQueue_other (op : FinalizeAggregationOperator) (part_id : Nat)
    (c : WorkOrdersContainer WorkOrder) (qc : QueryContext)
    (agg_state : AggregationOperationState) (op_index q : Nat)
    (hne : ¬ (op_index = op.op_index_ ∧ q = part_id)) :
    WorkOrdersContainer.normalQueue
        { normal_workorders := c.normal_workorders ++
            (List.range agg_state.getNumFinalizationPartitions).map (fun state_part_id =>
              (⟨op.op_index_, part_id,
                WorkOrder.FinalizeAggregationWorkOrder op.query_id_ part_id state_part_id
                  agg_state (qc.getInsertDestination op.output_destination_index_)⟩ :
                QueuedWorkOrder WorkOrder))
          rebuild_workorders := c.rebuild_workorders } op_index q =
      c.normalQueue op_index q := by
  have hmap : (List.range agg_state.getNumFinalizationPartitions).map (fun state_part_id =>
      (⟨op.op_index_, part_id,
        WorkOrder.FinalizeAggregationWorkOrder op.query_id_ part_id state_part_id agg_state
          (qc.getInsertDestination op.output_destination_index_)⟩ :
        QueuedWorkOrder WorkOrder)) =
      ((List.range agg_state.getNumFinalizationPartitions).map (fun state_part_id =>
        WorkOrder.FinalizeAggregationWorkOrder op.query_id_ part_id state_part_id agg_state
          (qc.getInsertDestination op.output_destination_index_))).map
        (fun w => (⟨op.op_index_, part_id, w⟩ : QueuedWorkOrder WorkOrder)) := by
    rw [List.map_map]
    rfl
  rw [hmap]
  exact WorkOrdersContainer.normalQueue_append_other c op.op_index_ part_id _ op_index q hne

end FinalizeAggregationOperator

/-- C15: `getAllWorkOrders` for partition `p` touches only partition `p`: the
call returns, and for every partition `q` different from `p` it leaves
`started_[q]` and `blocking_dependencies_met_[q]` as they were and adds no
work order to the queue of `(op_index_, q)`; it leaves
`blocking_dependencies_met_[p]` and the rebuild queues as they were too, and
when `started_[p]` is true before the call it is true after it. -/
theorem getAllWorkOrders_touches_only_its_partition (op : FinalizeAggregationOperator)
    (p : Nat) (c : WorkOrdersContainer WorkOrder) (qc : QueryContext)
    (agg_state : AggregationOperationState)
    (hmet : p < op.blocking_dependencies_met_.length)
    (hstarted : p < op.started_.length)
    (hagg : qc.getAggregationState op.aggr_state_index_ p = some agg_state) :
    ∃ r op1 c1, op.getAllWorkOrders p c qc = some (r, op1, c1) ∧
      (∀ q, q ≠ p →
        op1.started_[q]? = op.started_[q]? ∧
          op1.blocking_dependencies_met_[q]? = op.blocking_dependencies_met_[q]? ∧
          c1.normalQueue op.op_index_ q = c.normalQueue op.op_index_ q) ∧
      op1.blocking_dependencies_met_[p]? = op.blocking_dependencies_met_[p]? ∧
      c1.rebuild_workorders = c.rebuild_workorders ∧
      (op.started_[p]? = some true → op1.started_[p]? = some true) := by
  have hm : op.blocking_dependencies_met_[p]? = some (op.blocking_dependencies_met_[p]) :=
    List.getElem?_eq_getElem hmet
  have hs : op.started_[p]? = some (op.started_[p]) := List.getElem?_eq_getElem hstarted
  cases hready : (op.blocking_dependencies_met_[p] && !op.started_[p]) with
  | false =>
      exact ⟨op.started_[p], op, c,
        FinalizeAggregationOperator.getAllWorkOrders_of_not_ready op p c qc _ _ hm hs hready,
        fun q _ => ⟨rfl, rfl, rfl⟩, rfl, rfl, fun h => h⟩
  | true =>
      simp only [Bool.and_eq_true, Bool.not_eq_true'] at hready
      rw [hready.1] at hm
      rw [hready.2] at hs
      refine ⟨true, { op with started_ := op.started_.set p true }, _,
        FinalizeAggregationOperator.getAllWorkOrders_of_ready op p c qc agg_state hm hs hagg,
        ?_, rfl, rfl, ?_⟩
      · intro q hq
        refine ⟨?_, rfl, ?_⟩
        · show (op.started_.set p true)[q]? = op.started_[q]?
          exact List.getElem?_set_ne (fun h => hq h.symm)
        · exact FinalizeAggregationOperator.generated_normalQueue_other op p c qc agg_state
            op.op_index_ q (fun h => hq h.2)
      · intro h
        rw [hs] at h
        cases h

/-- Witness of C15: the call for partition 1 of `sampleFinalizeOperator`, which
queues three work orders for partition 1. -/
theorem getAllWorkOrders_touches_only_its_partition_witness :
    (1 < sampleFinalizeOperator.blocking_dependencies_met_.length ∧
      1 < sampleFinalizeOperator.started_.length ∧
      sampleQueryContext.getAggregationState sampleFinalizeOperator.aggr_state_index_ 1 =
        some sampleAggregationState) ∧
    ∃ r op1 c1, sampleFinalizeOperator.getAllWorkOrders 1 emptyContainer sampleQueryContext =
        some (r, op1, c1) ∧
      (∀ q, q ≠ 1 →
        op1.started_[q]? = sampleFinalizeOperator.started_[q]? ∧
          op1.blocking_dependencies_met_[q]? =
            sampleFinalizeOperator.blocking_dependencies_met_[q]? ∧
          c1.normalQueue sampleFinalizeOperator.op_index_ q =
            emptyContainer.normalQueue sampleFinalizeOperator.op_index_ q) ∧
      op1.blocking_dependencies_met_[1]? =
        sampleFinalizeOperator.blocking_dependencies_met_[1]? ∧
      c1.rebuild_workorders = emptyContainer.rebuild_workorders ∧
      (sampleFinalizeOperator.started_[1]? = some true → op1.started_[1]? = some true) :=
  ⟨⟨by decide, by decide, by decide⟩,
    getAllWorkOrders_touches_only_its_partition sampleFinalizeOperator 1 emptyContainer
      sampleQueryContext sampleAggregationState (by decide) (by decide) (by decide)⟩

/-! ## `ScalarLiteral::copyWithNewChildren` -/

/-- C13: for a `ScalarLiteral` `s` at the handle `self`, `copyWithNewChildren`
applied to a child list as long as the children of `s` returns the handle of
a new node (not `self`, not a node of the store before the call) that is a
childless `ScalarLiteral` with the value and the value type of `s`; `s` and
every other node of the store are left as they were. -/
theorem copyWithNewChildren_clones {Value ValueType : Type}
    (store : optimizer.expressions.NodeStore Value ValueType)
    (self : optimizer.expressions.ExpressionPtr)
    (s : optimizer.expressions.ScalarLiteral Value ValueType)
    (new_children : List optimizer.expressions.ExpressionPtr)
    (hself : store.nodes[self]? = some s)
    (hlen : new_children.length = s.children.length) :
    ∃ ptr store1,
      optimizer.expressions.ScalarLiteral.copyWithNewChildren store self new_children =
        some (ptr, store1) ∧
      ptr ≠ self ∧
      store.nodes[ptr]? = none ∧
      (∃ s1, store1.nodes[ptr]? = some s1 ∧ s1.value = s.value ∧
        s1.getValueType = s.getValueType ∧ s1.children = []) ∧
      store1.nodes[self]? = some s ∧
      (∀ (q : optimizer.expressions.ExpressionPtr)
          (n : optimizer.expressions.ScalarLiteral Value ValueType),
        store.nodes[q]? = some n → store1.nodes[q]? = some n) := by
  have hlt : self < store.nodes.length := by
    rcases List.getElem?_eq_some.mp hself with ⟨h, _⟩
    exact h
  have keep : ∀ (q : optimizer.expressions.ExpressionPtr)
      (n : optimizer.expressions.ScalarLiteral Value ValueType), store.nodes[q]? = some n →
      (store.nodes ++
        [({ children_ := [], value_ := s.value_, value_type_ := s.value_type_ } :
          optimizer.expressions.ScalarLiteral Value ValueType)])[q]? = some n := by
    intro q n hq
    have hql : q < store.nodes.length := by
      rcases List.getElem?_eq_some.mp hq with ⟨h, _⟩
      exact h
    rw [List.getElem?_append_left hql]
    exact hq
  refine ⟨store.nodes.length,
    { nodes := store.nodes ++
        [{ children_ := [], value_ := s.value_, value_type_ := s.value_type_ }] },
    ?_, ?_, ?_, ?_, ?_, ?_⟩
  · unfold optimizer.expressions.ScalarLiteral.copyWithNewChildren
    simp only [hself, hlen, if_true]
    rfl
  · exact Nat.ne_of_gt hlt
  · exact List.getElem?_eq_none (Nat.le_refl _)
  · refine ⟨{ children_ := [], value_ := s.value_, value_type_ := s.value_type_ }, ?_,
      rfl, rfl, rfl⟩
    show (store.nodes ++ _)[store.nodes.length]? = _
    simp
  · exact keep self s hself
  · exact keep

/-- Witness of C13: the literal 42 at handle 0 of `sampleNodeStore`, copied
with the empty child list. -/
theorem copyWithNewChildren_clones_witness :
    (sampleNodeStore.nodes[0]? =
        some ({ children_ := [], value_ := 42, value_type_ := 1 } :
          optimizer.expressions.ScalarLiteral Nat Nat) ∧
      ([] : List optimizer.expressions.ExpressionPtr).length =
        ({ children_ := [], value_ := 42, value_type_ := 1 } :
          optimizer.expressions.ScalarLiteral Nat Nat).children.length) ∧
    ∃ ptr store1,
      optimizer.expressions.ScalarLiteral.copyWithNewChildren sampleNodeStore 0 [] =
        some (ptr, store1) ∧
      ptr ≠ 0 ∧
      sampleNodeStore.nodes[ptr]? = none ∧
      (∃ s1, store1.nodes[ptr]? = some s1 ∧
        s1.value = ({ children_ := [], value_ := 42, value_type_ := 1 } :
          optimizer.expressions.ScalarLiteral Nat Nat).value ∧
        s1.getValueType = ({ children_ := [], value_ := 42, value_type_ := 1 } :
          optimizer.expressions.ScalarLiteral Nat Nat).getValueType ∧
        s1.children = []) ∧
      store1.nodes[0]? =
        some ({ children_ := [], value_ := 42, value_type_ := 1 } :
          optimizer.expressions.ScalarLiteral Nat Nat) ∧
      (∀ (q : optimizer.expressions.ExpressionPtr)
          (n : optimizer.expressions.ScalarLiteral Nat Nat),
        sampleNodeStore.nodes[q]? = some n → store1.nodes[q]? = some n) :=
  ⟨⟨by decide, by decide⟩,
    copyWithNewChildren_clones sampleNodeStore 0
      { children_ := [], value_ := 42, value_type_ := 1 } [] (by decide) (by decide)⟩

end Quickstep
